import Mathlib

/-!
# Scrap Hunter (`rissul.cpp`): simulation engine

A shallow embedding of the grid world, the player and the pursuer of
`src/rissul.cpp`, followed by theorems about them.

Modelling conventions.

* C++ `int` is `Int`, with exact arithmetic.  An `int` holds the values of
  `FitsInt` (32 bits); the exact result of `+` or `-` is the program's result
  whenever it is such a value, and signed overflow is undefined behaviour in
  C++.  Coordinates inside the 40x14 map and health in `[0,100]` never
  overflow.  The theorems on `takeDamage` with an arbitrary amount, on the
  pickup `scrapInBag + 1` and on the banking `totalScrap + scrapInBag` state
  the resulting value for operands and results that are `FitsInt`.
* `char grid[MAP_HEIGHT][MAP_WIDTH]` is a function `grid y x`; only the
  entries with `0 ≤ y < 14`, `0 ≤ x < 40` are ever read or written.
* A method that mutates `this` and its reference arguments returns the new
  values of everything it may mutate.
* `rand()` reads a stream `rng : Nat → Nat` of future results: a call returns
  `rng 0` and leaves the stream `fun i => rng (i + 1)`.
-/

namespace Rissul

/-! ## Constants (lines 21-22) -/

def MAP_HEIGHT : Int := 14

def MAP_WIDTH : Int := 40

/-- The values of the C++ type `int` of the source: 32 bits, two's complement. -/
def FitsInt (a : Int) : Prop := -2147483648 ≤ a ∧ a ≤ 2147483647

instance (a : Int) : Decidable (FitsInt a) := by
  unfold FitsInt; infer_instance

/-- The future results of `rand()`, in call order. -/
abbrev Rand := Nat → Nat

/-- One call of `rand()`: the stream that is left. -/
def Rand.next (rng : Rand) : Rand := fun i => rng (i + 1)

/-- The function `std::abs` on `int`. -/
def intAbs (a : Int) : Int := if a < 0 then -a else a

/-! ## Data model (lines 61-83) -/

/-- Class `Monster`: position and symbol. -/
structure Monster where
  x : Int
  y : Int
  symbol : Char
deriving DecidableEq, Repr

/-- Class `Player`: position, health and carried scrap. -/
structure Player where
  x : Int
  y : Int
  hp : Int
  scrapInBag : Int
deriving DecidableEq, Repr

/-- Class `Map`: the grid (`grid y x`), the monsters and the entrance. -/
structure Map where
  grid : Int → Int → Char
  monsters : List Monster
  startX : Int
  startY : Int

/-- Constructor `Stalker(startX, startY)`: a monster with symbol `'M'`. -/
def Stalker.new (startX startY : Int) : Monster := ⟨startX, startY, 'M'⟩

/-! ## Player (lines 74-75) -/

/-- The method `Player::isAlive`. -/
def Player.isAlive (self : Player) : Bool := decide (self.hp > 0)

/-- The method `Player::takeDamage`.  The difference `hp - amount` is exact: it is
the `int` difference of the source when it is representable (`FitsInt`). -/
def Player.takeDamage (self : Player) (amount : Int) : Player :=
  { self with hp := if self.hp - amount < 0 then 0 else self.hp - amount }

/-! ## Map (lines 88-93) -/

/-- The method `Map::isWall`. -/
def Map.isWall (self : Map) (x y : Int) : Bool :=
  if x < 0 ∨ x ≥ MAP_WIDTH ∨ y < 0 ∨ y ≥ MAP_HEIGHT then true
  else self.grid y x == '#'

/-- The method `Map::getChar`. -/
def Map.getChar (self : Map) (x y : Int) : Char :=
  if x < 0 ∨ x ≥ MAP_WIDTH ∨ y < 0 ∨ y ≥ MAP_HEIGHT then ' ' else self.grid y x

/-- The method `Map::setChar`. -/
def Map.setChar (self : Map) (x y : Int) (c : Char) : Map :=
  if x ≥ 0 ∧ x < MAP_WIDTH ∧ y ≥ 0 ∧ y < MAP_HEIGHT then
    { self with grid := fun j i => if j = y ∧ i = x then c else self.grid j i }
  else self

/-! ## Stalker (lines 111-136) -/

/-- What `Stalker::update` may mutate: the stalker itself, the player, the map,
and the random stream. -/
structure StalkerStep where
  self : Monster
  player : Player
  map : Map
  rng : Rand

/-- Lines 116-118: the cell `(newX, newY)` of the chase branch. -/
def Stalker.chaseTarget (self : Monster) (player : Player) : Int × Int :=
  let dx := player.x - self.x
  let dy := player.y - self.y
  if intAbs dx > intAbs dy then (self.x + (if dx > 0 then 1 else -1), self.y)
  else (self.x, self.y + (if dy > 0 then 1 else -1))

/-- Lines 129-130: the cell `(newX, newY)` of the wander branch for `dir`. -/
def Stalker.wanderTarget (self : Monster) (dir : Nat) : Int × Int :=
  if dir = 0 then (self.x, self.y - 1)
  else if dir = 1 then (self.x, self.y + 1)
  else if dir = 2 then (self.x - 1, self.y)
  else (self.x + 1, self.y)

/-- Lines 123 and 133: `map.setChar(x, y, '.'); x = newX; y = newY;
map.setChar(x, y, symbol);`. -/
def Stalker.stepTo (self : Monster) (map : Map) (newX newY : Int) : Monster × Map :=
  let map1 := map.setChar self.x self.y '.'
  let self1 : Monster := { self with x := newX, y := newY }
  (self1, map1.setChar self1.x self1.y self1.symbol)

/-- The method `Stalker::update`. -/
def Stalker.update (self : Monster) (player : Player) (map : Map) (rng : Rand) :
    StalkerStep :=
  let dx := player.x - self.x
  let dy := player.y - self.y
  let dist := intAbs dx + intAbs dy
  if dist < 6 ∧ dist > 0 then
    let t := Stalker.chaseTarget self player
    if !map.isWall t.1 t.2 then
      if t.1 = player.x ∧ t.2 = player.y then
        ⟨self, player.takeDamage 25, map, rng⟩
      else if map.getChar t.1 t.2 = '.' then
        let r := Stalker.stepTo self map t.1 t.2
        ⟨r.1, player, r.2, rng⟩
      else ⟨self, player, map, rng⟩
    else ⟨self, player, map, rng⟩
  else
    if rng 0 % 2 = 0 then ⟨self, player, map, rng.next⟩
    else
      let dir := rng 1 % 4
      let t := Stalker.wanderTarget self dir
      if (!map.isWall t.1 t.2) ∧ map.getChar t.1 t.2 = '.' then
        let r := Stalker.stepTo self map t.1 t.2
        ⟨r.1, player, r.2, rng.next.next⟩
      else ⟨self, player, map, rng.next.next⟩

/-! ## Map::updateMonsters (line 156) and Player::move (lines 157-164) -/

/-- What the loop of `Map::updateMonsters` may mutate. -/
structure MonstersStep where
  monsters : List Monster
  player : Player
  map : Map
  rng : Rand

/-- The loop `for (auto m : monsters) m->update(player, *this)`, over the
monsters still to be visited.  The `monsters` field of the map passed along is
not read by `Stalker::update`; the updated monsters are collected in order. -/
def Map.updateEach : List Monster → Player → Map → Rand → MonstersStep
  | [], player, map, rng => ⟨[], player, map, rng⟩
  | m :: rest, player, map, rng =>
    let r := Stalker.update m player map rng
    let rs := Map.updateEach rest r.player r.map r.rng
    ⟨r.self :: rs.monsters, rs.player, rs.map, rs.rng⟩

/-- The method `Map::updateMonsters`: the new player, map and random stream. -/
def Map.updateMonsters (self : Map) (player : Player) (rng : Rand) :
    Player × Map × Rand :=
  let rs := Map.updateEach self.monsters player self rng
  (rs.player, { rs.map with monsters := rs.monsters }, rs.rng)

/-- Lines 158-159: the cell `(newX, newY)` of `Player::move`. -/
def Player.moveTarget (self : Player) (input : Char) : Int × Int :=
  if input = 'w' then (self.x, self.y - 1)
  else if input = 's' then (self.x, self.y + 1)
  else if input = 'a' then (self.x - 1, self.y)
  else if input = 'd' then (self.x + 1, self.y)
  else (self.x, self.y)

/-- The method `Player::move`: the new player and map.  The increment
`scrapInBag++` is exact: it is the `int` increment of the source when
`scrapInBag + 1` is representable (`FitsInt`). -/
def Player.move (self : Player) (input : Char) (map : Map) : Player × Map :=
  let t := Player.moveTarget self input
  if !map.isWall t.1 t.2 then
    let self1 : Player := { self with x := t.1, y := t.2 }
    if map.getChar self1.x self1.y = '$' then
      ({ self1 with scrapInBag := self1.scrapInBag + 1 }, map.setChar self1.x self1.y '.')
    else (self1, map)
  else (self, map)

/-! ## Map::load (lines 139-155)

The file is its list of lines, each a list of characters; `none` is a file that
cannot be opened.  The `y`-th call of `std::getline` yields line `y`, and fails
once the lines are used up. -/

/-- The assignment `grid[y][x] = c` inside the loops of `Map::load`, where
`0 ≤ y < MAP_HEIGHT` and `0 ≤ x < MAP_WIDTH`. -/
def Map.assignCell (self : Map) (x y : Nat) (c : Char) : Map :=
  { self with grid := fun j i => if j = (y : Int) ∧ i = (x : Int) then c else self.grid j i }

/-- Lines 147-151: the body of the inner loop, at column `x` of row `y`. -/
def Map.loadCell (self : Map) (row : List Char) (y x : Nat) : Map :=
  if h : x < row.length then
    let m := self.assignCell x y row[x]
    if row[x] = 'E' then { m with startX := x, startY := y }
    else if row[x] = 'M' then { m with monsters := m.monsters ++ [Stalker.new x y] }
    else m
  else self.assignCell x y ' '

/-- Lines 146-152: the inner loop `for (int x = 0; x < n; ++x)` on row `y`; the
source runs it with `n = MAP_WIDTH`. -/
def Map.loadCols (self : Map) (row : List Char) (y : Nat) : Nat → Map
  | 0 => self
  | n + 1 => (self.loadCols row y n).loadCell row y n

/-- Lines 143-153: the outer loop from row `y` on, over the lines not yet read;
it stops at `MAP_HEIGHT` or when `getline` fails. -/
def Map.loadFrom (self : Map) : Nat → List (List Char) → Map
  | _, [] => self
  | y, row :: rest =>
    if (y : Int) < MAP_HEIGHT then
      (self.loadCols row y MAP_WIDTH.toNat).loadFrom (y + 1) rest
    else self

/-- The method `Map::load`: the returned flag and the new map. -/
def Map.load (self : Map) (source : Option (List (List Char))) : Bool × Map :=
  match source with
  | none => (false, self)
  | some lines => (true, ({ self with monsters := [] } : Map).loadFrom 0 lines)

/-! ## Game::startDay (lines 166-221) -/

/-- Class `Game`. -/
structure Game where
  player : Player
  map : Map
  day : Int
  quota : Int
  totalScrap : Int
  gameRunning : Bool

/-- One pass through the body of the `while` loop of `Game::startDay`: the game
and random stream it leaves, and whether `startDay` returned in it. -/
structure TickResult where
  game : Game
  rng : Rand
  returned : Bool

/-- The test of the `while` loop, line 198. -/
def Game.loopTest (self : Game) : Bool := self.gameRunning && self.player.isAlive

/-- Line 212: `Player::move` is called for `w`, `a`, `s`, `d` only. -/
def Game.moveStage (self : Game) (input : Char) : Player × Map :=
  if input = 'w' ∨ input = 'a' ∨ input = 's' ∨ input = 'd' then
    self.player.move input self.map
  else (self.player, self.map)

/-- Lines 215-218: the death check after the pursuers have been advanced. -/
def Game.deathCheck (player : Player) : Player :=
  if !player.isAlive then { player with scrapInBag := 0, hp := 100 } else player

/-- Lines 205-219: the body of the `while` loop of `Game::startDay` for the
command `input` returned by `getInput()`.  The sum `totalScrap + scrapInBag` is
exact: it is the `int` sum of the source when it is representable (`FitsInt`). -/
def Game.tick (self : Game) (input : Char) (rng : Rand) : TickResult :=
  if input = 'q' then ⟨{ self with gameRunning := false }, rng, true⟩
  else if input = 'e' ∧ self.player.x = self.map.startX ∧ self.player.y = self.map.startY then
    ⟨{ self with totalScrap := self.totalScrap + self.player.scrapInBag }, rng, true⟩
  else
    let s1 := self.moveStage input
    let s2 := s1.2.updateMonsters s1.1 rng
    ⟨{ self with player := Game.deathCheck s2.1, map := s2.2.1 }, s2.2.2, false⟩

/-! ## Specification-side vocabulary -/

/-- Spec wording: a position inside the declared 40x14 bounds. -/
def InBounds (x y : Int) : Prop := 0 ≤ x ∧ x < 40 ∧ 0 ≤ y ∧ y < 14

instance (x y : Int) : Decidable (InBounds x y) := by
  unfold InBounds; infer_instance

/-- Spec wording: the four direction commands. -/
inductive Direction where
  | up | down | left | right
deriving DecidableEq, Repr

/-- Spec wording: the command character of a direction (`w`, `s`, `a`, `d`). -/
def Direction.key : Direction → Char
  | .up => 'w'
  | .down => 's'
  | .left => 'a'
  | .right => 'd'

/-- Spec wording: one step in a direction; up decreases `y`. -/
def Direction.delta : Direction → Int × Int
  | .up => (0, -1)
  | .down => (0, 1)
  | .left => (-1, 0)
  | .right => (1, 0)

/-- Spec wording: the cell one step from `(x, y)` in a direction. -/
def Direction.cellFrom (d : Direction) (x y : Int) : Int × Int :=
  (x + d.delta.1, y + d.delta.2)

/-- Spec wording: the Manhattan distance between two positions. -/
def manhattan (x1 y1 x2 y2 : Int) : Int := |x2 - x1| + |y2 - y1|

/-- A cell holds no Resource and every pursuer of the map is a `Stalker`
(symbol `'M'`). -/
def NoScrapAt (tx ty : Int) (s : Player × Map) : Prop :=
  s.2.getChar tx ty ≠ '$' ∧ ∀ m ∈ s.2.monsters, m.symbol = 'M'

/-! ## Example maps -/

/-- A map whose only non-Wall cell is `(1,1)`, a Floor cell. -/
def closedRoom : Map :=
  { grid := fun y x => if x = 1 ∧ y = 1 then '.' else '#',
    monsters := [], startX := 1, startY := 1 }

/-- An all-Floor map with one Resource at `(cx, cy)`. -/
def scrapAt (cx cy : Int) : Map :=
  { grid := fun y x => if x = cx ∧ y = cy then '$' else '.',
    monsters := [], startX := 1, startY := 1 }

/-- An all-Floor map. -/
def openFloor : Map :=
  { grid := fun _ _ => '.', monsters := [], startX := 1, startY := 1 }

/-- An all-Floor map with the character `c` at `(cx, cy)` and the given pursuers. -/
def floorWith (cx cy : Int) (c : Char) (ms : List Monster) : Map :=
  { grid := fun y x => if x = cx ∧ y = cy then c else '.',
    monsters := ms, startX := 1, startY := 1 }

/-- An all-Floor map with `'M'` at the cells of the pursuers `ms`, its pursuer list. -/
def floorOf (ms : List Monster) : Map :=
  { grid := fun y x => if (x, y) ∈ ms.map (fun a => (a.x, a.y)) then 'M' else '.',
    monsters := ms, startX := 1, startY := 1 }

/-- Spec wording: the pursuers (as updated), player, map and random stream after
the first `k` pursuers of the map have been advanced by `Map::updateMonsters`. -/
def afterFirst (k : Nat) (map : Map) (player : Player) (rng : Rand) : MonstersStep :=
  Map.updateEach (map.monsters.take k) player map rng

/-- Spec wording: the pursuer is in the Chase state, `0 < dist < 6`. -/
def Chasing (self : Monster) (player : Player) : Prop :=
  0 < manhattan self.x self.y player.x player.y ∧
    manhattan self.x self.y player.x player.y < 6

instance (self : Monster) (player : Player) : Decidable (Chasing self player) := by
  unfold Chasing; infer_instance

/-- Spec wording: the wander direction chosen by the second draw modulo 4:
0 up, 1 down, 2 left, 3 right. -/
def wanderDirection (k : Nat) : Direction :=
  if k = 0 then .up else if k = 1 then .down else if k = 2 then .left else .right

/-- Spec wording: the wander target for a second draw `k`, one step from the
pursuer in the direction `wanderDirection k`. -/
def wanderCell (self : Monster) (k : Nat) : Int × Int :=
  (wanderDirection k).cellFrom self.x self.y

/-- Spec wording: the chase target, one step toward the player along the x axis
when `|dx| > |dy|` and along the y axis otherwise. -/
def chaseCell (self : Monster) (player : Player) : Int × Int :=
  if |player.x - self.x| > |player.y - self.y| then
    (self.x + Int.sign (player.x - self.x), self.y)
  else (self.x, self.y + Int.sign (player.y - self.y))

/-- One call made by the simulation on the player and the map: a `Player::move`
with a command, or a `Map::updateMonsters` with the random results it reads. -/
inductive Event where
  | move (input : Char)
  | monsters (rng : Rand)

/-- The effect of one call on the player and the map. -/
def Event.apply (s : Player × Map) : Event → Player × Map
  | .move input => s.1.move input s.2
  | .monsters rng => ((s.2.updateMonsters s.1 rng).1, (s.2.updateMonsters s.1 rng).2.1)

/-- The effect of a sequence of calls, first to last. -/
def runEvents (s : Player × Map) (evs : List Event) : Player × Map :=
  evs.foldl Event.apply s

/-- Spec wording: the character of the source at column `x` of row `y`, if any. -/
def sourceChar (lines : List (List Char)) (x y : Nat) : Option Char :=
  lines[y]?.bind (fun row => row[x]?)

/-- Spec wording: the columns `x < 40` of row `y` whose character is `c`, in order. -/
def columnsOf (lines : List (List Char)) (c : Char) (y : Nat) : List Nat :=
  (List.range 40).filter (fun x => sourceChar lines x y = some c)

/-- Spec wording: the coordinates `(x, y)` of the character `c` in the first `n`
rows and first 40 columns of the source, in row-major reading order. -/
def positionsIn (lines : List (List Char)) (c : Char) (n : Nat) : List (Nat × Nat) :=
  (List.range n).flatMap (fun y => (columnsOf lines c y).map (fun x => (x, y)))

/-- Spec wording: the coordinates `(x, y)` of the character `c` in the first 14
rows and first 40 columns of the source, in row-major reading order. -/
def positionsOf (lines : List (List Char)) (c : Char) : List (Nat × Nat) :=
  positionsIn lines c 14

/-- Spec wording: one pursuer per `'M'` of the window, in row-major order. -/
def spawnsOf (lines : List (List Char)) : List Monster :=
  (positionsOf lines 'M').map (fun q : Nat × Nat => Stalker.new (q.1 : Int) (q.2 : Int))

/-- Spec wording: the pursuers of a list stand on pairwise distinct cells, each
cell reads the pursuer symbol `'M'` on the map, and each pursuer is a `Stalker`. -/
def Separated (ms : List Monster) (map : Map) : Prop :=
  ms.Pairwise (fun a b => ¬ (a.x = b.x ∧ a.y = b.y)) ∧
  ∀ a ∈ ms, map.getChar a.x a.y = 'M' ∧ a.symbol = 'M'

instance (ms : List Monster) (map : Map) : Decidable (Separated ms map) := by
  unfold Separated; infer_instance

/-- The rows `0 .. n-1` of `Map::load`, row by row: the outer loop seen from its
row counter (used to reason about `Map.loadFrom`). -/
def Map.loadRows (self : Map) (lines : List (List Char)) : Nat → Map
  | 0 => self
  | n + 1 =>
    match lines[n]? with
    | none => self.loadRows lines n
    | some row => (self.loadRows lines n).loadCols row n 40

/-! ## Basic facts about the map accessors -/

theorem intAbs_eq_abs (a : Int) : intAbs a = |a| := by
  unfold intAbs
  split
  · rw [abs_of_neg (by assumption)]
  · rw [abs_of_nonneg (by omega)]

theorem isWall_eq_true_iff (m : Map) (x y : Int) :
    m.isWall x y = true ↔ (¬ InBounds x y ∨ m.grid y x = '#') := by
  unfold Map.isWall InBounds MAP_WIDTH MAP_HEIGHT
  split
  · constructor
    · intro _; left; omega
    · intro _; rfl
  · constructor
    · intro h; right; simpa using h
    · intro h
      rcases h with h | h
      · omega
      · simp [h]

theorem isWall_eq_false_iff (m : Map) (x y : Int) :
    m.isWall x y = false ↔ (InBounds x y ∧ m.grid y x ≠ '#') := by
  rw [← Bool.not_eq_true, isWall_eq_true_iff]
  tauto

theorem getChar_of_inBounds (m : Map) (x y : Int) (h : InBounds x y) :
    m.getChar x y = m.grid y x := by
  unfold Map.getChar MAP_WIDTH MAP_HEIGHT
  unfold InBounds at h
  rw [if_neg (by omega)]

theorem getChar_of_not_inBounds (m : Map) (x y : Int) (h : ¬ InBounds x y) :
    m.getChar x y = ' ' := by
  unfold Map.getChar MAP_WIDTH MAP_HEIGHT
  unfold InBounds at h
  rw [if_pos (by omega)]

theorem inBounds_of_getChar_ne_blank (m : Map) (x y : Int) (h : m.getChar x y ≠ ' ') :
    InBounds x y := by
  by_contra hb
  exact h (getChar_of_not_inBounds m x y hb)

theorem setChar_of_inBounds (m : Map) (x y : Int) (c : Char) (h : InBounds x y) :
    m.setChar x y c =
      { m with grid := fun j i => if j = y ∧ i = x then c else m.grid j i } := by
  unfold Map.setChar MAP_WIDTH MAP_HEIGHT
  unfold InBounds at h
  rw [if_pos (by omega)]

theorem setChar_of_not_inBounds (m : Map) (x y : Int) (c : Char) (h : ¬ InBounds x y) :
    m.setChar x y c = m := by
  unfold Map.setChar MAP_WIDTH MAP_HEIGHT
  unfold InBounds at h
  rw [if_neg (by omega)]

theorem getChar_setChar_self (m : Map) (x y : Int) (c : Char) (h : InBounds x y) :
    (m.setChar x y c).getChar x y = c := by
  rw [getChar_of_inBounds _ _ _ h, setChar_of_inBounds _ _ _ _ h]
  simp

theorem getChar_setChar_ne (m : Map) (x y i j : Int) (c : Char) (h : ¬ (i = x ∧ j = y)) :
    (m.setChar x y c).getChar i j = m.getChar i j := by
  by_cases hb : InBounds x y
  · rw [setChar_of_inBounds _ _ _ _ hb]
    unfold Map.getChar
    split
    · rfl
    · have : ¬ (j = y ∧ i = x) := by tauto
      simp [this]
  · rw [setChar_of_not_inBounds _ _ _ _ hb]

theorem setChar_monsters (m : Map) (x y : Int) (c : Char) :
    (m.setChar x y c).monsters = m.monsters ∧ (m.setChar x y c).startX = m.startX ∧
      (m.setChar x y c).startY = m.startY := by
  unfold Map.setChar
  split <;> simp

/-! ## Player::takeDamage -/

theorem takeDamage_hp (p : Player) (a : Int) : (p.takeDamage a).hp = max 0 (p.hp - a) := by
  unfold Player.takeDamage
  simp only
  split
  · rw [max_eq_left (by omega)]
  · rw [max_eq_right (by omega)]

theorem foldl_takeDamage_hp (ds : List Int) :
    ∀ p : Player, 0 ≤ p.hp → (∀ d ∈ ds, 0 ≤ d) →
      (ds.foldl Player.takeDamage p).hp = max 0 (p.hp - ds.sum) := by
  induction ds with
  | nil =>
    intro p hp _
    simp [hp]
  | cons d rest ih =>
    intro p hp hd
    have hd0 : 0 ≤ d := hd d (List.mem_cons_self _ _)
    have hrest : ∀ e ∈ rest, 0 ≤ e := fun e he => hd e (List.mem_cons_of_mem _ he)
    have hsum : 0 ≤ rest.sum := List.sum_nonneg hrest
    have h1 : 0 ≤ (p.takeDamage d).hp := by
      rw [takeDamage_hp]; exact le_max_left _ _
    rw [List.foldl_cons, ih _ h1 hrest, takeDamage_hp, List.sum_cons]
    rcases le_total 0 (p.hp - d) with h | h
    · rw [max_eq_right h]
      congr 1
      omega
    · rw [max_eq_left h, max_eq_left (by omega), max_eq_left (by omega)]

/-- C6: for `int` values of the health and the amount whose difference is an `int`
value, `Player::takeDamage(a)` sets health to `max(0, health - a)`; it never
leaves a negative health and leaves the position and the carried count alone;
for an initial health `h ≥ 0` and any finite sequence of non-negative damage
amounts applied one after another, the final health is `max(0, h - sum)`, which
is never negative. -/
theorem C6_health_clamp :
    (∀ (p : Player) (a : Int),
      (FitsInt p.hp → FitsInt a → FitsInt (p.hp - a) →
        (p.takeDamage a).hp = max 0 (p.hp - a)) ∧
      0 ≤ (p.takeDamage a).hp ∧
      (p.takeDamage a).x = p.x ∧ (p.takeDamage a).y = p.y ∧
      (p.takeDamage a).scrapInBag = p.scrapInBag) ∧
    (∀ (p : Player) (ds : List Int), 0 ≤ p.hp → (∀ d ∈ ds, 0 ≤ d) →
      (ds.foldl Player.takeDamage p).hp = max 0 (p.hp - ds.sum) ∧
      0 ≤ (ds.foldl Player.takeDamage p).hp) := by
  refine ⟨fun p a => ⟨fun _ _ _ => takeDamage_hp p a, ?_, rfl, rfl, rfl⟩, fun p ds hp hd => ?_⟩
  · rw [takeDamage_hp]; exact le_max_left _ _
  · rw [foldl_takeDamage_hp ds p hp hd]
    exact ⟨rfl, le_max_left _ _⟩

/-- C6 at health 10 with damage 25 (health 0), and at health 100 with damages 25,
25, 60 (final health 0). -/
theorem C6_health_clamp_witness :
    (Player.takeDamage ⟨1, 1, 10, 0⟩ 25).hp = max 0 ((10 : Int) - 25) ∧
    ([25, 25, 60].foldl Player.takeDamage ⟨1, 1, 100, 0⟩).hp
        = max 0 ((100 : Int) - [25, 25, 60].sum) ∧
      0 ≤ ([25, 25, 60].foldl Player.takeDamage ⟨1, 1, 100, 0⟩).hp :=
  ⟨(C6_health_clamp.1 ⟨1, 1, 10, 0⟩ 25).1 (by decide) (by decide) (by decide),
    C6_health_clamp.2 ⟨1, 1, 100, 0⟩ [25, 25, 60] (by decide) (by decide)⟩

/-! ## Map::isWall -/

/-- C7: `Map::isWall(x, y)` is true exactly when `x < 0`, `x ≥ 40`, `y < 0`, `y ≥ 14`
or the cell at `(x, y)` holds `'#'`; in particular it is true at every position
outside the 40x14 bounds, whatever the grid holds. -/
theorem C7_isWall_iff (m : Map) (x y : Int) :
    (m.isWall x y = true ↔
      (x < 0 ∨ x ≥ 40 ∨ y < 0 ∨ y ≥ 14 ∨ m.getChar x y = '#')) ∧
    ((x < 0 ∨ x ≥ 40 ∨ y < 0 ∨ y ≥ 14) → m.isWall x y = true) ∧
    MAP_WIDTH = 40 ∧ MAP_HEIGHT = 14 := by
  refine ⟨?_, ?_, rfl, rfl⟩
  · by_cases hb : InBounds x y
    · rw [isWall_eq_true_iff, getChar_of_inBounds _ _ _ hb]
      unfold InBounds at hb
      constructor
      · rintro (h | h)
        · exact absurd hb h
        · right; right; right; right; exact h
      · rintro (h | h | h | h | h)
        · omega
        · omega
        · omega
        · omega
        · right; exact h
    · rw [isWall_eq_true_iff]
      unfold InBounds at hb
      constructor
      · intro _; omega
      · intro _; left; exact hb
  · intro h
    rw [isWall_eq_true_iff]
    left
    unfold InBounds
    omega

/-- C7 at `(40, 3)` on the all-Floor map: outside the bounds, so a wall. -/
theorem C7_isWall_iff_witness : openFloor.isWall 40 3 = true :=
  (C7_isWall_iff openFloor 40 3).2.1 (by decide)

/-! ## Player::move -/

theorem moveTarget_key (p : Player) (d : Direction) :
    p.moveTarget d.key = d.cellFrom p.x p.y := by
  cases d <;> simp [Player.moveTarget, Direction.key, Direction.cellFrom, Direction.delta]
    <;> rfl

theorem moveTarget_other (p : Player) (c : Char)
    (hc : c ≠ 'w' ∧ c ≠ 'a' ∧ c ≠ 's' ∧ c ≠ 'd') : p.moveTarget c = (p.x, p.y) := by
  unfold Player.moveTarget
  rw [if_neg hc.1, if_neg hc.2.2.1, if_neg hc.2.1, if_neg hc.2.2.2]

theorem move_of_wall (p : Player) (c : Char) (m : Map)
    (h : m.isWall (p.moveTarget c).1 (p.moveTarget c).2 = true) : p.move c m = (p, m) := by
  unfold Player.move
  simp [h]

theorem move_of_not_wall (p : Player) (c : Char) (m : Map)
    (h : m.isWall (p.moveTarget c).1 (p.moveTarget c).2 = false) :
    p.move c m =
      if m.getChar (p.moveTarget c).1 (p.moveTarget c).2 = '$' then
        ({ p with x := (p.moveTarget c).1, y := (p.moveTarget c).2,
                  scrapInBag := p.scrapInBag + 1 },
          m.setChar (p.moveTarget c).1 (p.moveTarget c).2 '.')
      else ({ p with x := (p.moveTarget c).1, y := (p.moveTarget c).2 }, m) := by
  unfold Player.move
  simp [h]

/-- C1: for a direction command, if `Map::isWall` holds at the cell one step in
that direction then `Player::move` changes nothing (player and grid are as
before); otherwise the player's position becomes exactly that cell.  In a room
whose only non-Wall cell is `(1,1)`, the commands up, down from `(1,1)` with
carried count 0 leave the player at `(1,1)` with carried count 0. -/
theorem C1_move_wall_rejection :
    (∀ (map : Map) (p : Player) (d : Direction),
      (map.isWall (d.cellFrom p.x p.y).1 (d.cellFrom p.x p.y).2 = true →
        p.move d.key map = (p, map)) ∧
      (map.isWall (d.cellFrom p.x p.y).1 (d.cellFrom p.x p.y).2 = false →
        ((p.move d.key map).1.x, (p.move d.key map).1.y) = d.cellFrom p.x p.y)) ∧
    (∀ (room : Map) (hp : Int), (∀ x y, ¬ (x = 1 ∧ y = 1) → room.isWall x y = true) →
      ((Player.move ⟨1, 1, hp, 0⟩ 'w' room).1.move 's'
          (Player.move ⟨1, 1, hp, 0⟩ 'w' room).2).1 = ⟨1, 1, hp, 0⟩) := by
  refine ⟨fun map p d => ⟨fun h => ?_, fun h => ?_⟩, fun room hp h => ?_⟩
  · rw [← moveTarget_key] at h
    exact move_of_wall p d.key map h
  · rw [← moveTarget_key] at h
    rw [move_of_not_wall p d.key map h, ← moveTarget_key]
    split <;> rfl
  · have h1 : Player.move ⟨1, 1, hp, 0⟩ 'w' room = (⟨1, 1, hp, 0⟩, room) :=
      move_of_wall _ _ _ (h _ _ (by simp [Player.moveTarget]))
    rw [h1]
    have h2 : Player.move ⟨1, 1, hp, 0⟩ 's' room = (⟨1, 1, hp, 0⟩, room) :=
      move_of_wall _ _ _ (h _ _ (by simp [Player.moveTarget]))
    rw [h2]

/-- C1 in the room `closedRoom`: up then down from `(1,1)` changes nothing. -/
theorem C1_move_wall_rejection_witness :
    (∀ x y : Int, ¬ (x = 1 ∧ y = 1) → closedRoom.isWall x y = true) ∧
    ((Player.move ⟨1, 1, 100, 0⟩ 'w' closedRoom).1.move 's'
        (Player.move ⟨1, 1, 100, 0⟩ 'w' closedRoom).2).1 = ⟨1, 1, 100, 0⟩ :=
  have h : ∀ x y : Int, ¬ (x = 1 ∧ y = 1) → closedRoom.isWall x y = true := by
    intro x y hxy
    rw [isWall_eq_true_iff]
    right
    simp [closedRoom, hxy]
  ⟨h, C1_move_wall_rejection.2 closedRoom 100 h⟩

/-- C8 fails as stated: on a map with a Resource at `(1,1)`, the player standing
at `(1,1)` with carried count 0 and the command `x` ends with carried count 1 and
the cell `(1,1)` rewritten from `'$'` to `'.'`. -/
theorem C8_noop_counterexample :
    ('x' ≠ 'w' ∧ 'x' ≠ 'a' ∧ 'x' ≠ 's' ∧ 'x' ≠ 'd') ∧
    (Player.move ⟨1, 1, 100, 0⟩ 'x' (scrapAt 1 1)).1.scrapInBag = 1 ∧
    (scrapAt 1 1).getChar 1 1 = '$' ∧
    (Player.move ⟨1, 1, 100, 0⟩ 'x' (scrapAt 1 1)).2.getChar 1 1 = '.' := by
  decide

/-- C8, amended: for a command character other than `w`, `a`, `s`, `d`,
`Player::move` leaves the position and the health unchanged, and when the cell
the player stands on does not hold `'$'` it leaves the whole player and the whole
map unchanged. -/
theorem C8_noop_amended (map : Map) (p : Player) (c : Char)
    (hc : c ≠ 'w' ∧ c ≠ 'a' ∧ c ≠ 's' ∧ c ≠ 'd') :
    (p.move c map).1.x = p.x ∧ (p.move c map).1.y = p.y ∧ (p.move c map).1.hp = p.hp ∧
    (map.getChar p.x p.y ≠ '$' → p.move c map = (p, map)) := by
  have ht := moveTarget_other p c hc
  cases hw : map.isWall (p.moveTarget c).1 (p.moveTarget c).2
  · rw [move_of_not_wall p c map hw, ht]
    simp only
    split
    · exact ⟨rfl, rfl, rfl, fun h => absurd (by assumption) h⟩
    · exact ⟨rfl, rfl, rfl, fun _ => rfl⟩
  · rw [move_of_wall p c map hw]
    exact ⟨rfl, rfl, rfl, fun _ => rfl⟩

/-- C8, amended, for the command `x` at `(2,2)` on a map with a Resource at `(1,1)`. -/
theorem C8_noop_amended_witness :
    ('x' ≠ 'w' ∧ 'x' ≠ 'a' ∧ 'x' ≠ 's' ∧ 'x' ≠ 'd') ∧
    (scrapAt 1 1).getChar 2 2 ≠ '$' ∧
    Player.move ⟨2, 2, 100, 0⟩ 'x' (scrapAt 1 1) = (⟨2, 2, 100, 0⟩, scrapAt 1 1) :=
  ⟨by decide, by decide,
    (C8_noop_amended (scrapAt 1 1) ⟨2, 2, 100, 0⟩ 'x' (by decide)).2.2.2 (by decide)⟩

/-! ## Stalker::update -/

theorem manhattan_eq (x1 y1 x2 y2 : Int) :
    manhattan x1 y1 x2 y2 = intAbs (x2 - x1) + intAbs (y2 - y1) := by
  rw [intAbs_eq_abs, intAbs_eq_abs]; rfl

theorem getChar_floor (m : Map) (x y : Int) (h : m.getChar x y = '.') :
    InBounds x y ∧ m.isWall x y = false := by
  have hb : InBounds x y := inBounds_of_getChar_ne_blank m x y (by rw [h]; decide)
  refine ⟨hb, ?_⟩
  rw [isWall_eq_false_iff]
  refine ⟨hb, ?_⟩
  rw [← getChar_of_inBounds m x y hb, h]
  decide

theorem wanderTarget_ne_player (self : Monster) (player : Player) (k : Nat)
    (h : ¬ (intAbs (player.x - self.x) + intAbs (player.y - self.y) < 6 ∧
      intAbs (player.x - self.x) + intAbs (player.y - self.y) > 0)) :
    ¬ ((Stalker.wanderTarget self k).1 = player.x ∧
       (Stalker.wanderTarget self k).2 = player.y) := by
  unfold Stalker.wanderTarget
  unfold intAbs at h
  split_ifs at h ⊢ <;> simp only [] at * <;> omega

/-- The shape of every result of `Stalker::update`: the stalker stays, or it
steps onto a cell that held Floor and is not the player's cell. -/
theorem update_stay_or_step (self : Monster) (player : Player) (map : Map) (rng : Rand) :
    ((Stalker.update self player map rng).self = self ∧
      (Stalker.update self player map rng).map = map) ∨
    (∃ tx ty, map.getChar tx ty = '.' ∧ ¬ (tx = player.x ∧ ty = player.y) ∧
      (Stalker.update self player map rng).self = { self with x := tx, y := ty } ∧
      (Stalker.update self player map rng).map =
        (map.setChar self.x self.y '.').setChar tx ty self.symbol ∧
      (Stalker.update self player map rng).player = player) := by
  unfold Stalker.update
  simp only []
  split_ifs with h1 h2 h3 h4 h5 h6
  · left; exact ⟨rfl, rfl⟩
  · right; exact ⟨_, _, h4, h3, rfl, rfl, rfl⟩
  · left; exact ⟨rfl, rfl⟩
  · left; exact ⟨rfl, rfl⟩
  · left; exact ⟨rfl, rfl⟩
  · right; exact ⟨_, _, h6.2, wanderTarget_ne_player self player _ h1, rfl, rfl, rfl⟩
  · left; exact ⟨rfl, rfl⟩

/-- The method `Stalker::update` changes at most the health of the player. -/
theorem update_player_frame (self : Monster) (player : Player) (map : Map) (rng : Rand) :
    (Stalker.update self player map rng).player.x = player.x ∧
    (Stalker.update self player map rng).player.y = player.y ∧
    (Stalker.update self player map rng).player.scrapInBag = player.scrapInBag := by
  unfold Stalker.update
  simp only []
  split_ifs <;> exact ⟨rfl, rfl, rfl⟩

/-- The method `Stalker::update` keeps the symbol of the stalker. -/
theorem update_symbol (self : Monster) (player : Player) (map : Map) (rng : Rand) :
    (Stalker.update self player map rng).self.symbol = self.symbol := by
  unfold Stalker.update
  simp only []
  split_ifs <;> rfl

/-- C4: after `Stalker::update`, for every grid, player, pursuer and random stream,
either the pursuer's position is unchanged, or its new position is an in-bounds
cell that held plain Floor `'.'` just before the update (so neither a wall nor a
Resource cell). -/
theorem C4_pursuer_floor_only (self : Monster) (player : Player) (map : Map) (rng : Rand) :
    ((Stalker.update self player map rng).self.x = self.x ∧
      (Stalker.update self player map rng).self.y = self.y) ∨
    (InBounds (Stalker.update self player map rng).self.x
        (Stalker.update self player map rng).self.y ∧
      map.getChar (Stalker.update self player map rng).self.x
        (Stalker.update self player map rng).self.y = '.' ∧
      map.isWall (Stalker.update self player map rng).self.x
        (Stalker.update self player map rng).self.y = false ∧
      map.getChar (Stalker.update self player map rng).self.x
        (Stalker.update self player map rng).self.y ≠ '$') := by
  rcases update_stay_or_step self player map rng with ⟨h, _⟩ | ⟨tx, ty, hf, _, hs, _, _⟩
  · left; rw [h]; exact ⟨rfl, rfl⟩
  · right
    rw [hs]
    simp only
    exact ⟨(getChar_floor map tx ty hf).1, hf, (getChar_floor map tx ty hf).2,
      by rw [hf]; decide⟩

/-- In the chase range `Stalker::update` is its chase branch. -/
theorem update_of_chase (self : Monster) (player : Player) (map : Map) (rng : Rand)
    (hd : 0 < manhattan self.x self.y player.x player.y ∧
      manhattan self.x self.y player.x player.y < 6) :
    Stalker.update self player map rng =
      if map.isWall (Stalker.chaseTarget self player).1 (Stalker.chaseTarget self player).2
          = true then ⟨self, player, map, rng⟩
      else if (Stalker.chaseTarget self player).1 = player.x ∧
          (Stalker.chaseTarget self player).2 = player.y then
        ⟨self, player.takeDamage 25, map, rng⟩
      else if map.getChar (Stalker.chaseTarget self player).1
          (Stalker.chaseTarget self player).2 = '.' then
        ⟨{ self with x := (Stalker.chaseTarget self player).1,
                     y := (Stalker.chaseTarget self player).2 }, player,
          (map.setChar self.x self.y '.').setChar (Stalker.chaseTarget self player).1
            (Stalker.chaseTarget self player).2 self.symbol, rng⟩
      else ⟨self, player, map, rng⟩ := by
  rw [manhattan_eq] at hd
  unfold Stalker.update
  simp only []
  rw [if_pos ⟨hd.2, hd.1⟩]
  cases hw : map.isWall (Stalker.chaseTarget self player).1 (Stalker.chaseTarget self player).2
  · simp [Stalker.stepTo]
  · simp

/-- Outside the chase range `Stalker::update` is its wander branch. -/
theorem update_of_wander (self : Monster) (player : Player) (map : Map) (rng : Rand)
    (hd : manhattan self.x self.y player.x player.y = 0 ∨
      6 ≤ manhattan self.x self.y player.x player.y) :
    Stalker.update self player map rng =
      if rng 0 % 2 = 0 then ⟨self, player, map, rng.next⟩
      else if map.isWall (Stalker.wanderTarget self (rng 1 % 4)).1
            (Stalker.wanderTarget self (rng 1 % 4)).2 = false ∧
          map.getChar (Stalker.wanderTarget self (rng 1 % 4)).1
            (Stalker.wanderTarget self (rng 1 % 4)).2 = '.' then
        ⟨{ self with x := (Stalker.wanderTarget self (rng 1 % 4)).1,
                     y := (Stalker.wanderTarget self (rng 1 % 4)).2 }, player,
          (map.setChar self.x self.y '.').setChar (Stalker.wanderTarget self (rng 1 % 4)).1
            (Stalker.wanderTarget self (rng 1 % 4)).2 self.symbol, rng.next.next⟩
      else ⟨self, player, map, rng.next.next⟩ := by
  rw [manhattan_eq] at hd
  unfold Stalker.update
  simp only []
  rw [if_neg (by omega)]
  simp [Stalker.stepTo]

theorem chaseTarget_eq (self : Monster) (player : Player)
    (hd : 0 < manhattan self.x self.y player.x player.y) :
    Stalker.chaseTarget self player = chaseCell self player := by
  rw [manhattan_eq] at hd
  unfold Stalker.chaseTarget chaseCell
  simp only []
  rw [← intAbs_eq_abs, ← intAbs_eq_abs]
  unfold intAbs at hd ⊢
  split_ifs at hd ⊢ <;>
    first
    | omega
    | (rw [Int.sign_eq_one_of_pos (by omega)])
    | (rw [Int.sign_eq_neg_one_of_neg (by omega)])

theorem chaseTarget_dist (self : Monster) (player : Player)
    (hd : 0 < manhattan self.x self.y player.x player.y) :
    manhattan (Stalker.chaseTarget self player).1 (Stalker.chaseTarget self player).2
        player.x player.y = manhattan self.x self.y player.x player.y - 1 := by
  rw [manhattan_eq] at hd
  rw [manhattan_eq, manhattan_eq]
  unfold Stalker.chaseTarget
  simp only []
  unfold intAbs at hd ⊢
  split_ifs at hd ⊢ <;> simp only [] at * <;> omega

theorem wanderTarget_eq (self : Monster) (k : Nat) :
    Stalker.wanderTarget self k = wanderCell self k := by
  unfold Stalker.wanderTarget wanderCell wanderDirection
  split_ifs <;> simp [Direction.cellFrom, Direction.delta] <;> rfl

/-- The grid after a step from `(x, y)` to another, in-bounds cell `(tx, ty)`. -/
theorem stepped_reads (map : Map) (x y tx ty : Int) (sym : Char)
    (hne : ¬ (tx = x ∧ ty = y)) (hb : InBounds tx ty) :
    ((map.setChar x y '.').setChar tx ty sym).getChar tx ty = sym ∧
    (InBounds x y → ((map.setChar x y '.').setChar tx ty sym).getChar x y = '.') := by
  refine ⟨getChar_setChar_self _ _ _ _ hb, fun hx => ?_⟩
  rw [getChar_setChar_ne _ _ _ _ _ _ (by tauto)]
  exact getChar_setChar_self _ _ _ _ hx

theorem manhattan_self (x y : Int) : manhattan x y x y = 0 := by
  simp [manhattan]

/-- C3: when `0 < dist < 6`, the chase target is the player's position and the
player stands on an in-bounds non-Wall cell, `Stalker::update` leaves the pursuer
and the whole map unchanged, the pursuer is not on the player's cell, the
player's health becomes `max(0, health - 25)` and nothing else of the player
changes. -/
theorem C3_chase_attack (self : Monster) (player : Player) (map : Map) (rng : Rand)
    (hd : 0 < manhattan self.x self.y player.x player.y ∧
      manhattan self.x self.y player.x player.y < 6)
    (ht : Stalker.chaseTarget self player = (player.x, player.y))
    (hp : InBounds player.x player.y ∧ map.isWall player.x player.y = false) :
    (Stalker.update self player map rng).self = self ∧
    (Stalker.update self player map rng).map = map ∧
    ¬ ((Stalker.update self player map rng).self.x = player.x ∧
       (Stalker.update self player map rng).self.y = player.y) ∧
    (Stalker.update self player map rng).player.hp = max 0 (player.hp - 25) ∧
    (Stalker.update self player map rng).player.x = player.x ∧
    (Stalker.update self player map rng).player.y = player.y ∧
    (Stalker.update self player map rng).player.scrapInBag = player.scrapInBag := by
  have hne : ¬ (self.x = player.x ∧ self.y = player.y) := by
    rintro ⟨hx, hy⟩
    have h0 := hd.1
    rw [hx, hy, manhattan_self] at h0
    exact lt_irrefl _ h0
  have hu : Stalker.update self player map rng = ⟨self, player.takeDamage 25, map, rng⟩ := by
    rw [update_of_chase self player map rng hd, ht]
    simp [hp.2]
  rw [hu]
  exact ⟨rfl, rfl, hne, takeDamage_hp player 25, rfl, rfl, rfl⟩

/-- C3 for a pursuer at `(5,2)` and a player at `(5,1)` with health 10: the health
becomes 0. -/
theorem C3_chase_attack_witness :
    (Stalker.update ⟨5, 2, 'M'⟩ ⟨5, 1, 10, 0⟩ openFloor (fun _ => 0)).self = ⟨5, 2, 'M'⟩ ∧
    (Stalker.update ⟨5, 2, 'M'⟩ ⟨5, 1, 10, 0⟩ openFloor (fun _ => 0)).player.hp = 0 :=
  have h := C3_chase_attack ⟨5, 2, 'M'⟩ ⟨5, 1, 10, 0⟩ openFloor (fun _ => 0)
    (by simp [manhattan]) (by decide) (by decide)
  ⟨h.1, h.2.2.2.1⟩

theorem chaseTarget_ne_self (self : Monster) (player : Player) :
    ¬ ((Stalker.chaseTarget self player).1 = self.x ∧
       (Stalker.chaseTarget self player).2 = self.y) := by
  unfold Stalker.chaseTarget
  simp only []
  split_ifs <;> simp only [] <;> omega

theorem wanderTarget_ne_self (self : Monster) (k : Nat) :
    ¬ ((Stalker.wanderTarget self k).1 = self.x ∧
       (Stalker.wanderTarget self k).2 = self.y) := by
  unfold Stalker.wanderTarget
  split_ifs <;> simp only [] <;> omega

/-- C5: when `0 < dist < 6`, the chase target of `Stalker::update` is one step toward
the player along the x axis when `|dx| > |dy|` and along the y axis otherwise
(ties go to the y axis); it is at Manhattan distance `dist - 1` from the player;
and when it holds Floor and is not the player's cell, the pursuer moves there,
the map is the old one with `'.'` written at the old position and the pursuer's
symbol at the target, and the player is unchanged. -/
theorem C5_chase_direction (self : Monster) (player : Player) (map : Map) (rng : Rand)
    (hd : 0 < manhattan self.x self.y player.x player.y ∧
      manhattan self.x self.y player.x player.y < 6) :
    Stalker.chaseTarget self player = chaseCell self player ∧
    (|player.x - self.x| = |player.y - self.y| →
      chaseCell self player = (self.x, self.y + Int.sign (player.y - self.y))) ∧
    manhattan (chaseCell self player).1 (chaseCell self player).2 player.x player.y
      = manhattan self.x self.y player.x player.y - 1 ∧
    (map.getChar (chaseCell self player).1 (chaseCell self player).2 = '.' →
      ¬ ((chaseCell self player).1 = player.x ∧ (chaseCell self player).2 = player.y) →
      ((Stalker.update self player map rng).self.x,
        (Stalker.update self player map rng).self.y) = chaseCell self player ∧
      (Stalker.update self player map rng).self.symbol = self.symbol ∧
      (Stalker.update self player map rng).map =
        (map.setChar self.x self.y '.').setChar (chaseCell self player).1
          (chaseCell self player).2 self.symbol ∧
      (Stalker.update self player map rng).map.getChar (chaseCell self player).1
          (chaseCell self player).2 = self.symbol ∧
      (InBounds self.x self.y →
        (Stalker.update self player map rng).map.getChar self.x self.y = '.') ∧
      (Stalker.update self player map rng).player = player) := by
  have ht := chaseTarget_eq self player hd.1
  refine ⟨ht, fun he => ?_, ?_, fun hf hne => ?_⟩
  · unfold chaseCell
    rw [if_neg (by rw [he]; exact lt_irrefl _)]
  · rw [← ht]
    exact chaseTarget_dist self player hd.1
  · have hfl := getChar_floor map _ _ hf
    have hu : Stalker.update self player map rng =
        ⟨{ self with x := (chaseCell self player).1, y := (chaseCell self player).2 }, player,
          (map.setChar self.x self.y '.').setChar (chaseCell self player).1
            (chaseCell self player).2 self.symbol, rng⟩ := by
      rw [update_of_chase self player map rng hd, ht]
      rw [if_neg (by rw [hfl.2]; decide), if_neg hne, if_pos hf]
    have hns := chaseTarget_ne_self self player
    rw [ht] at hns
    have hr := stepped_reads map self.x self.y _ _ self.symbol hns hfl.1
    rw [hu]
    exact ⟨rfl, rfl, rfl, hr.1, hr.2, rfl⟩

/-- C5 for a pursuer at `(5,5)` and a player at `(5,1)` on an all-Floor map: the
pursuer's next position is `(5,4)`. -/
theorem C5_chase_direction_witness :
    ((Stalker.update ⟨5, 5, 'M'⟩ ⟨5, 1, 100, 0⟩ openFloor (fun _ => 0)).self.x,
      (Stalker.update ⟨5, 5, 'M'⟩ ⟨5, 1, 100, 0⟩ openFloor (fun _ => 0)).self.y) = (5, 4) :=
  have h := (C5_chase_direction ⟨5, 5, 'M'⟩ ⟨5, 1, 100, 0⟩ openFloor (fun _ => 0)
    (by decide)).2.2.2 (by decide) (by decide)
  h.1.trans (by decide)

/-- C9: when `dist = 0` or `dist ≥ 6`, `Stalker::update` never changes the player;
with an even first draw it changes neither the pursuer nor the map and reads one
draw; with an odd first draw it reads exactly one more draw `k`, takes the cell one
step up, down, left or right for `k mod 4 = 0, 1, 2, 3`, and moves there (the map
gets `'.'` at the old position and the pursuer's symbol at the target) only if
that cell is not a wall and holds Floor; otherwise pursuer and map are unchanged. -/
theorem C9_wander_step (self : Monster) (player : Player) (map : Map) (rng : Rand)
    (hd : manhattan self.x self.y player.x player.y = 0 ∨
      6 ≤ manhattan self.x self.y player.x player.y) :
    (Stalker.update self player map rng).player = player ∧
    (rng 0 % 2 = 0 →
      (Stalker.update self player map rng).self = self ∧
      (Stalker.update self player map rng).map = map ∧
      (Stalker.update self player map rng).rng = rng.next) ∧
    (rng 0 % 2 ≠ 0 →
      Stalker.wanderTarget self (rng 1 % 4) = wanderCell self (rng 1 % 4) ∧
      (Stalker.update self player map rng).rng = rng.next.next ∧
      ((map.isWall (wanderCell self (rng 1 % 4)).1 (wanderCell self (rng 1 % 4)).2 = false ∧
          map.getChar (wanderCell self (rng 1 % 4)).1 (wanderCell self (rng 1 % 4)).2 = '.') →
        (Stalker.update self player map rng).self =
          { self with x := (wanderCell self (rng 1 % 4)).1,
                      y := (wanderCell self (rng 1 % 4)).2 } ∧
        (Stalker.update self player map rng).map =
          (map.setChar self.x self.y '.').setChar (wanderCell self (rng 1 % 4)).1
            (wanderCell self (rng 1 % 4)).2 self.symbol ∧
        (Stalker.update self player map rng).map.getChar (wanderCell self (rng 1 % 4)).1
            (wanderCell self (rng 1 % 4)).2 = self.symbol ∧
        (InBounds self.x self.y →
          (Stalker.update self player map rng).map.getChar self.x self.y = '.')) ∧
      (¬ (map.isWall (wanderCell self (rng 1 % 4)).1 (wanderCell self (rng 1 % 4)).2 = false ∧
          map.getChar (wanderCell self (rng 1 % 4)).1 (wanderCell self (rng 1 % 4)).2 = '.') →
        (Stalker.update self player map rng).self = self ∧
        (Stalker.update self player map rng).map = map)) := by
  have hu := update_of_wander self player map rng hd
  have ht := wanderTarget_eq self (rng 1 % 4)
  rw [ht] at hu
  refine ⟨?_, fun he => ?_, fun ho => ⟨ht, ?_, fun hf => ?_, fun hnf => ?_⟩⟩
  · rw [hu]; split_ifs <;> rfl
  · rw [hu, if_pos he]; exact ⟨rfl, rfl, rfl⟩
  · rw [hu, if_neg ho]; split_ifs <;> rfl
  · have hns := wanderTarget_ne_self self (rng 1 % 4)
    rw [ht] at hns
    have hr := stepped_reads map self.x self.y _ _ self.symbol hns (getChar_floor map _ _ hf.2).1
    rw [hu, if_neg ho, if_pos hf]
    exact ⟨rfl, rfl, hr.1, hr.2⟩
  · rw [hu, if_neg ho, if_neg hnf]; exact ⟨rfl, rfl⟩

/-- C9 for a pursuer at `(20,10)`, a player at `(1,1)`, an all-Floor map and the
draws 1, 3: the pursuer steps right to `(21,10)`. -/
theorem C9_wander_step_witness :
    (Stalker.update ⟨20, 10, 'M'⟩ ⟨1, 1, 100, 0⟩ openFloor (fun i => 2 * i + 1)).self
      = ⟨21, 10, 'M'⟩ :=
  have h := ((C9_wander_step ⟨20, 10, 'M'⟩ ⟨1, 1, 100, 0⟩ openFloor (fun i => 2 * i + 1)
    (by simp [manhattan])).2.2 (by decide)).2.2.1 (by decide)
  h.1.trans (by decide)

/-! ## Frame facts for the grid -/

theorem isWall_setChar_ne (m : Map) (x y i j : Int) (c : Char) (h : ¬ (i = x ∧ j = y)) :
    (m.setChar x y c).isWall i j = m.isWall i j := by
  by_cases hb : InBounds x y
  · rw [setChar_of_inBounds _ _ _ _ hb]
    unfold Map.isWall
    split
    · rfl
    · have : ¬ (j = y ∧ i = x) := by tauto
      simp [this]
  · rw [setChar_of_not_inBounds _ _ _ _ hb]

theorem isWall_setChar_floor (m : Map) (x y i j : Int) (h : m.isWall i j = false) :
    (m.setChar x y '.').isWall i j = false := by
  by_cases hxy : i = x ∧ j = y
  · have hb : InBounds x y := by
      rw [← hxy.1, ← hxy.2]; exact ((isWall_eq_false_iff m i j).1 h).1
    rw [isWall_eq_false_iff, hxy.1, hxy.2]
    refine ⟨hb, ?_⟩
    rw [← getChar_of_inBounds _ _ _ hb, getChar_setChar_self _ _ _ _ hb]
    decide
  · rw [isWall_setChar_ne _ _ _ _ _ _ hxy]; exact h

theorem getChar_setChar_cases (m : Map) (x y i j : Int) (c : Char) :
    (m.setChar x y c).getChar i j = c ∨ (m.setChar x y c).getChar i j = m.getChar i j := by
  by_cases hxy : i = x ∧ j = y
  · by_cases hb : InBounds x y
    · left; rw [hxy.1, hxy.2]; exact getChar_setChar_self _ _ _ _ hb
    · right; rw [setChar_of_not_inBounds _ _ _ _ hb]
  · right; exact getChar_setChar_ne _ _ _ _ _ _ hxy

theorem isWall_with_monsters (m : Map) (ms : List Monster) (x y : Int) :
    ({ m with monsters := ms } : Map).isWall x y = m.isWall x y := rfl

theorem getChar_with_monsters (m : Map) (ms : List Monster) (x y : Int) :
    ({ m with monsters := ms } : Map).getChar x y = m.getChar x y := rfl

/-! ## The player's cell stays a non-Wall cell -/

theorem move_keeps_off_wall (p : Player) (c : Char) (m : Map)
    (h : m.isWall p.x p.y = false) :
    (p.move c m).2.isWall (p.move c m).1.x (p.move c m).1.y = false := by
  cases hw : m.isWall (p.moveTarget c).1 (p.moveTarget c).2
  · rw [move_of_not_wall p c m hw]
    split
    · exact isWall_setChar_floor _ _ _ _ _ hw
    · exact hw
  · rw [move_of_wall p c m hw]; exact h

theorem update_keeps_off_wall (self : Monster) (player : Player) (map : Map) (rng : Rand)
    (h : map.isWall player.x player.y = false) :
    (Stalker.update self player map rng).map.isWall player.x player.y = false := by
  rcases update_stay_or_step self player map rng with ⟨_, hm⟩ | ⟨tx, ty, _, hne, _, hm, _⟩
  · rw [hm]; exact h
  · rw [hm, isWall_setChar_ne _ _ _ _ _ _ (by tauto)]
    exact isWall_setChar_floor _ _ _ _ _ h

theorem updateEach_keeps_off_wall (ms : List Monster) :
    ∀ (player : Player) (map : Map) (rng : Rand), map.isWall player.x player.y = false →
      (Map.updateEach ms player map rng).player.x = player.x ∧
      (Map.updateEach ms player map rng).player.y = player.y ∧
      (Map.updateEach ms player map rng).map.isWall player.x player.y = false := by
  induction ms with
  | nil => intro player map rng h; exact ⟨rfl, rfl, h⟩
  | cons m rest ih =>
    intro player map rng h
    have hf := update_player_frame m player map rng
    have hw := update_keeps_off_wall m player map rng h
    rw [← hf.1, ← hf.2.1] at hw
    have := ih _ _ (Stalker.update m player map rng).rng hw
    simp only [Map.updateEach]
    rw [hf.1, hf.2.1] at this
    exact this

/-- C10: if the player's position is within bounds and not on a Wall cell, it
still is after `Player::move` with any command, and after `Map::updateMonsters`
with any pursuer list and any random results. -/
theorem C10_player_position_invariant (map : Map) (p : Player)
    (h : InBounds p.x p.y ∧ map.isWall p.x p.y = false) :
    (∀ c : Char,
      InBounds (p.move c map).1.x (p.move c map).1.y ∧
      (p.move c map).2.isWall (p.move c map).1.x (p.move c map).1.y = false) ∧
    (∀ rng : Rand,
      InBounds (map.updateMonsters p rng).1.x (map.updateMonsters p rng).1.y ∧
      (map.updateMonsters p rng).2.1.isWall (map.updateMonsters p rng).1.x
        (map.updateMonsters p rng).1.y = false) := by
  constructor
  · intro c
    have hw := move_keeps_off_wall p c map h.2
    exact ⟨((isWall_eq_false_iff _ _ _).1 hw).1, hw⟩
  · intro rng
    have he := updateEach_keeps_off_wall map.monsters p map rng h.2
    have hw : (map.updateMonsters p rng).2.1.isWall (map.updateMonsters p rng).1.x
        (map.updateMonsters p rng).1.y = false := by
      unfold Map.updateMonsters
      simp only []
      rw [isWall_with_monsters, he.1, he.2.1]
      exact he.2.2
    exact ⟨((isWall_eq_false_iff _ _ _).1 hw).1, hw⟩

/-- C10 for a player at `(1,1)` next to a pursuer at `(1,2)` on an all-Floor map. -/
theorem C10_player_position_invariant_witness :
    (InBounds 1 1 ∧ openFloor.isWall 1 1 = false) ∧
    (Player.move ⟨1, 1, 100, 0⟩ 'w' { openFloor with monsters := [Stalker.new 1 2] }).2.isWall
      (Player.move ⟨1, 1, 100, 0⟩ 'w' { openFloor with monsters := [Stalker.new 1 2] }).1.x
      (Player.move ⟨1, 1, 100, 0⟩ 'w' { openFloor with monsters := [Stalker.new 1 2] }).1.y
      = false ∧
    (Map.updateMonsters { openFloor with monsters := [Stalker.new 1 2] } ⟨1, 1, 100, 0⟩
      (fun _ => 1)).2.1.isWall
      (Map.updateMonsters { openFloor with monsters := [Stalker.new 1 2] } ⟨1, 1, 100, 0⟩
        (fun _ => 1)).1.x
      (Map.updateMonsters { openFloor with monsters := [Stalker.new 1 2] } ⟨1, 1, 100, 0⟩
        (fun _ => 1)).1.y = false :=
  ⟨by decide,
    ((C10_player_position_invariant { openFloor with monsters := [Stalker.new 1 2] }
      ⟨1, 1, 100, 0⟩ (by decide)).1 'w').2,
    ((C10_player_position_invariant { openFloor with monsters := [Stalker.new 1 2] }
      ⟨1, 1, 100, 0⟩ (by decide)).2 (fun _ => 1)).2⟩

/-! ## Resource pickup -/

theorem move_no_scrap (p : Player) (c : Char) (m : Map) (tx ty : Int)
    (h : NoScrapAt tx ty (p, m)) : NoScrapAt tx ty (p.move c m) := by
  cases hw : m.isWall (p.moveTarget c).1 (p.moveTarget c).2
  · rw [move_of_not_wall p c m hw]
    split
    · refine ⟨?_, ?_⟩
      · rcases getChar_setChar_cases m (p.moveTarget c).1 (p.moveTarget c).2 tx ty '.'
          with h1 | h1
        · simp only []; rw [h1]; decide
        · simp only []; rw [h1]; exact h.1
      · simp only []
        rw [(setChar_monsters m _ _ _).1]
        exact h.2
    · exact h
  · rw [move_of_wall p c m hw]; exact h

theorem update_no_scrap (self : Monster) (player : Player) (map : Map) (rng : Rand)
    (tx ty : Int) (hs : self.symbol = 'M') (h : map.getChar tx ty ≠ '$') :
    (Stalker.update self player map rng).map.getChar tx ty ≠ '$' := by
  rcases update_stay_or_step self player map rng with ⟨_, hm⟩ | ⟨ux, uy, _, _, _, hm, _⟩
  · rw [hm]; exact h
  · rw [hm]
    rcases getChar_setChar_cases (map.setChar self.x self.y '.') ux uy tx ty self.symbol
      with h1 | h1
    · rw [h1, hs]; decide
    · rw [h1]
      rcases getChar_setChar_cases map self.x self.y tx ty '.' with h2 | h2
      · rw [h2]; decide
      · rw [h2]; exact h

theorem updateEach_no_scrap (ms : List Monster) (tx ty : Int) :
    ∀ (player : Player) (map : Map) (rng : Rand), (∀ m ∈ ms, m.symbol = 'M') →
      map.getChar tx ty ≠ '$' →
      (Map.updateEach ms player map rng).map.getChar tx ty ≠ '$' ∧
      ∀ m ∈ (Map.updateEach ms player map rng).monsters, m.symbol = 'M' := by
  induction ms with
  | nil => intro player map rng hs h; exact ⟨h, hs⟩
  | cons m rest ih =>
    intro player map rng hs h
    have hm : m.symbol = 'M' := hs m (List.mem_cons_self _ _)
    have hrest : ∀ e ∈ rest, e.symbol = 'M' := fun e he => hs e (List.mem_cons_of_mem _ he)
    have h1 := update_no_scrap m player map rng tx ty hm h
    have h2 := ih (Stalker.update m player map rng).player _
      (Stalker.update m player map rng).rng hrest h1
    simp only [Map.updateEach]
    refine ⟨h2.1, fun e he => ?_⟩
    rcases List.mem_cons.1 he with he | he
    · rw [he, update_symbol]; exact hm
    · exact h2.2 e he

theorem apply_no_scrap (tx ty : Int) (s : Player × Map) (e : Event)
    (h : NoScrapAt tx ty s) : NoScrapAt tx ty (e.apply s) := by
  cases e with
  | move input => exact move_no_scrap s.1 input s.2 tx ty h
  | monsters rng =>
    have hu := updateEach_no_scrap s.2.monsters tx ty s.1 s.2 rng h.2 h.1
    exact ⟨hu.1, hu.2⟩

theorem run_no_scrap (tx ty : Int) (evs : List Event) :
    ∀ s : Player × Map, NoScrapAt tx ty s → NoScrapAt tx ty (runEvents s evs) := by
  induction evs with
  | nil => intro s h; exact h
  | cons e rest ih => intro s h; exact ih _ (apply_no_scrap tx ty s e h)

theorem move_count_of_no_scrap (p : Player) (c : Char) (m : Map)
    (h : m.getChar (p.move c m).1.x (p.move c m).1.y ≠ '$') :
    (p.move c m).1.scrapInBag = p.scrapInBag := by
  cases hw : m.isWall (p.moveTarget c).1 (p.moveTarget c).2
  · rw [move_of_not_wall p c m hw] at h ⊢
    split_ifs at h ⊢ with h1
    · exact absurd h1 h
    · rfl
  · rw [move_of_wall p c m hw]

/-- C2: when the target cell of a direction command holds the Resource marker `'$'`,
`Player::move` puts the player on that cell, increases the carried count by
exactly one (the count and the count plus one being `int` values) and leaves the
cell reading Floor `'.'`; and after any further sequence of `Player::move` and
`Map::updateMonsters` calls (the pursuers being `Stalker`s, symbol `'M'`), a move
that brings the player onto that cell does not change the carried count. -/
theorem C2_pickup_once (map : Map) (p : Player) (d : Direction)
    (h : map.getChar (d.cellFrom p.x p.y).1 (d.cellFrom p.x p.y).2 = '$') :
    ((p.move d.key map).1.x, (p.move d.key map).1.y) = d.cellFrom p.x p.y ∧
    (FitsInt p.scrapInBag → FitsInt (p.scrapInBag + 1) →
      (p.move d.key map).1.scrapInBag = p.scrapInBag + 1) ∧
    (p.move d.key map).2.getChar (d.cellFrom p.x p.y).1 (d.cellFrom p.x p.y).2 = '.' ∧
    ((∀ m ∈ map.monsters, m.symbol = 'M') → ∀ (evs : List Event) (c : Char),
      (((runEvents (p.move d.key map) evs).1.move c
          (runEvents (p.move d.key map) evs).2).1.x,
        ((runEvents (p.move d.key map) evs).1.move c
          (runEvents (p.move d.key map) evs).2).1.y) = d.cellFrom p.x p.y →
      ((runEvents (p.move d.key map) evs).1.move c
          (runEvents (p.move d.key map) evs).2).1.scrapInBag
        = (runEvents (p.move d.key map) evs).1.scrapInBag) := by
  have hb : InBounds (d.cellFrom p.x p.y).1 (d.cellFrom p.x p.y).2 :=
    inBounds_of_getChar_ne_blank map _ _ (by rw [h]; decide)
  have hw : map.isWall (p.moveTarget d.key).1 (p.moveTarget d.key).2 = false := by
    rw [moveTarget_key, isWall_eq_false_iff]
    refine ⟨hb, ?_⟩
    rw [← getChar_of_inBounds map _ _ hb, h]
    decide
  have hm : p.move d.key map =
      ({ p with x := (d.cellFrom p.x p.y).1, y := (d.cellFrom p.x p.y).2,
                scrapInBag := p.scrapInBag + 1 },
        map.setChar (d.cellFrom p.x p.y).1 (d.cellFrom p.x p.y).2 '.') := by
    rw [move_of_not_wall p d.key map hw, moveTarget_key, if_pos h]
  have hfloor : (p.move d.key map).2.getChar (d.cellFrom p.x p.y).1 (d.cellFrom p.x p.y).2
      = '.' := by
    rw [hm]; exact getChar_setChar_self _ _ _ _ hb
  refine ⟨by rw [hm], fun _ _ => by rw [hm], hfloor, fun hs evs c hpos => ?_⟩
  have h0 : NoScrapAt (d.cellFrom p.x p.y).1 (d.cellFrom p.x p.y).2 (p.move d.key map) := by
    refine ⟨by rw [hfloor]; decide, ?_⟩
    rw [hm]
    simp only []
    rw [(setChar_monsters map _ _ _).1]
    exact hs
  have h1 := (run_no_scrap _ _ evs _ h0).1
  apply move_count_of_no_scrap
  have hx := congrArg Prod.fst hpos
  have hy := congrArg Prod.snd hpos
  simp only [] at hx hy
  rw [hx, hy]
  exact h1

/-- C2 on a map with a Resource at `(2,1)` and a pursuer far away at `(30,10)`: from
`(1,1)` the command right gives position `(2,1)`, count 1 and Floor at `(2,1)`;
after a pursuer update and a step left, stepping right again keeps the count. -/
theorem C2_pickup_once_witness :
    (Player.move ⟨1, 1, 100, 0⟩ 'd' { scrapAt 2 1 with monsters := [Stalker.new 30 10] }).1
      = ⟨2, 1, 100, 1⟩ ∧
    (Player.move ⟨1, 1, 100, 0⟩ 'd'
      { scrapAt 2 1 with monsters := [Stalker.new 30 10] }).1.scrapInBag = 0 + 1 ∧
    (Player.move ⟨1, 1, 100, 0⟩ 'd'
      { scrapAt 2 1 with monsters := [Stalker.new 30 10] }).2.getChar 2 1 = '.' ∧
    ((runEvents (Player.move ⟨1, 1, 100, 0⟩ 'd'
          { scrapAt 2 1 with monsters := [Stalker.new 30 10] })
        [.monsters (fun _ => 1), .move 'a']).1.move 'd'
      (runEvents (Player.move ⟨1, 1, 100, 0⟩ 'd'
          { scrapAt 2 1 with monsters := [Stalker.new 30 10] })
        [.monsters (fun _ => 1), .move 'a']).2).1.scrapInBag = 1 :=
  have h := C2_pickup_once { scrapAt 2 1 with monsters := [Stalker.new 30 10] }
    ⟨1, 1, 100, 0⟩ .right (by decide)
  ⟨by decide, h.2.1 (by decide) (by decide), h.2.2.1,
    (h.2.2.2 (by decide) [.monsters (fun _ => 1), .move 'a'] 'd' (by decide)).trans
      (by decide)⟩

/-! ## Bounds-checked cell access -/

/-- C15: `Map::getChar` returns a blank for an out-of-bounds position and the stored
cell otherwise; `Map::setChar` leaves the whole map unchanged out of bounds; and
in bounds, after `setChar(x, y, c)` the cell `(x, y)` reads `c`, every other cell
reads as before, and the pursuer list and the entrance are unchanged. -/
theorem C15_cell_access (m : Map) (x y : Int) (c : Char) :
    (¬ InBounds x y → m.getChar x y = ' ' ∧ m.setChar x y c = m) ∧
    (InBounds x y →
      m.getChar x y = m.grid y x ∧
      (m.setChar x y c).getChar x y = c ∧
      (∀ i j : Int, ¬ (i = x ∧ j = y) →
        (m.setChar x y c).getChar i j = m.getChar i j ∧
        (m.setChar x y c).grid j i = m.grid j i)) ∧
    (m.setChar x y c).monsters = m.monsters ∧
    (m.setChar x y c).startX = m.startX ∧ (m.setChar x y c).startY = m.startY := by
  refine ⟨fun hb => ⟨getChar_of_not_inBounds m x y hb, setChar_of_not_inBounds m x y c hb⟩,
    fun hb => ⟨getChar_of_inBounds m x y hb, getChar_setChar_self m x y c hb,
      fun i j hne => ⟨getChar_setChar_ne m x y i j c hne, ?_⟩⟩, setChar_monsters m x y c⟩
  rw [setChar_of_inBounds m x y c hb]
  have : ¬ (j = y ∧ i = x) := by tauto
  simp [this]

/-- C15 at `(40, 0)` (out of bounds) and at `(3, 2)` (in bounds) on the all-Floor map. -/
theorem C15_cell_access_witness :
    (openFloor.getChar 40 0 = ' ' ∧ openFloor.setChar 40 0 '#' = openFloor) ∧
    (openFloor.setChar 3 2 '#').getChar 3 2 = '#' :=
  ⟨(C15_cell_access openFloor 40 0 '#').1 (by decide),
    ((C15_cell_access openFloor 3 2 '#').2.1 (by decide)).2.1⟩

/-! ## The player and occupied cells -/

/-- C18 fails as stated: with a pursuer at `(2,1)`, whose cell holds `'M'`, the
player at `(1,1)` and the command right, `Player::move` puts the player on `(2,1)`. -/
theorem C18_occupied_counterexample :
    (floorWith 2 1 'M' [Stalker.new 2 1]).getChar 2 1 = 'M' ∧
    Direction.right.cellFrom 1 1 = (2, 1) ∧
    (Player.move ⟨1, 1, 100, 0⟩ 'd' (floorWith 2 1 'M' [Stalker.new 2 1])).1
      = ⟨2, 1, 100, 0⟩ := by
  decide

/-- C18, amended: when the target cell of a direction command holds the pursuer
symbol `'M'`, `Player::move` moves the player onto that cell and leaves the
health, the carried count and the map unchanged. -/
theorem C18_occupied_amended (map : Map) (p : Player) (d : Direction)
    (h : map.getChar (d.cellFrom p.x p.y).1 (d.cellFrom p.x p.y).2 = 'M') :
    p.move d.key map =
      ({ p with x := (d.cellFrom p.x p.y).1, y := (d.cellFrom p.x p.y).2 }, map) := by
  have hb : InBounds (d.cellFrom p.x p.y).1 (d.cellFrom p.x p.y).2 :=
    inBounds_of_getChar_ne_blank map _ _ (by rw [h]; decide)
  have hw : map.isWall (p.moveTarget d.key).1 (p.moveTarget d.key).2 = false := by
    rw [moveTarget_key, isWall_eq_false_iff]
    refine ⟨hb, ?_⟩
    rw [← getChar_of_inBounds map _ _ hb, h]
    decide
  rw [move_of_not_wall p d.key map hw, moveTarget_key, if_neg (by rw [h]; decide)]

/-- C18, amended, for a pursuer at `(2,1)`, the player at `(1,1)` and the command right. -/
theorem C18_occupied_amended_witness :
    Player.move ⟨1, 1, 100, 0⟩ 'd' (floorWith 2 1 'M' [Stalker.new 2 1])
      = (⟨2, 1, 100, 0⟩, floorWith 2 1 'M' [Stalker.new 2 1]) :=
  C18_occupied_amended (floorWith 2 1 'M' [Stalker.new 2 1]) ⟨1, 1, 100, 0⟩ .right (by decide)

/-! ## Damage and the player's cell -/

theorem manhattan_eq_zero_iff (x1 y1 x2 y2 : Int) :
    manhattan x1 y1 x2 y2 = 0 ↔ (x1 = x2 ∧ y1 = y2) := by
  rw [manhattan_eq]
  unfold intAbs
  constructor
  · intro h
    split_ifs at h <;> omega
  · rintro ⟨h1, h2⟩
    split_ifs <;> omega

theorem manhattan_nonneg (x1 y1 x2 y2 : Int) : 0 ≤ manhattan x1 y1 x2 y2 := by
  unfold manhattan
  positivity

/-- The chase target is the player's cell exactly at distance 1. -/
theorem chaseTarget_eq_player_iff (self : Monster) (player : Player)
    (hd : 0 < manhattan self.x self.y player.x player.y) :
    ((Stalker.chaseTarget self player).1 = player.x ∧
      (Stalker.chaseTarget self player).2 = player.y) ↔
    manhattan self.x self.y player.x player.y = 1 := by
  rw [← manhattan_eq_zero_iff, chaseTarget_dist self player hd]
  omega

/-- The health after `Stalker::update`: hit once at distance 1 when the player
stands on a non-Wall cell, untouched otherwise. -/
theorem update_hp (self : Monster) (player : Player) (map : Map) (rng : Rand)
    (hp : map.isWall player.x player.y = false) :
    (Stalker.update self player map rng).player.hp =
      if manhattan self.x self.y player.x player.y = 1 then max 0 (player.hp - 25)
      else player.hp := by
  by_cases hd : 0 < manhattan self.x self.y player.x player.y ∧
      manhattan self.x self.y player.x player.y < 6
  · rw [update_of_chase self player map rng hd]
    by_cases h1 : manhattan self.x self.y player.x player.y = 1
    · have ht := (chaseTarget_eq_player_iff self player hd.1).2 h1
      rw [if_pos h1, ht.1, ht.2, if_neg (by rw [hp]; decide), if_pos ⟨rfl, rfl⟩]
      exact takeDamage_hp player 25
    · have ht : ¬ ((Stalker.chaseTarget self player).1 = player.x ∧
          (Stalker.chaseTarget self player).2 = player.y) :=
        fun h => h1 ((chaseTarget_eq_player_iff self player hd.1).1 h)
      rw [if_neg h1, if_neg ht]
      split_ifs <;> rfl
  · have hw : manhattan self.x self.y player.x player.y = 0 ∨
        6 ≤ manhattan self.x self.y player.x player.y := by
      have := manhattan_nonneg self.x self.y player.x player.y
      omega
    have h1 : ¬ manhattan self.x self.y player.x player.y = 1 := by omega
    rw [update_of_wander self player map rng hw, if_neg h1]
    split_ifs <;> rfl

/-- C19: when the player stands on an in-bounds non-Wall cell, `Stalker::update`
changes the player's health exactly when the Manhattan distance is 1 and the
health is not 0 (for a health `≥ 0`: is above 0); at distance 1 the health
becomes `max(0, health - 25)`, at every other distance it is unchanged; the
player's position and carried count never change. -/
theorem C19_damage_iff_adjacent (self : Monster) (player : Player) (map : Map) (rng : Rand)
    (hp : InBounds player.x player.y ∧ map.isWall player.x player.y = false) :
    ((Stalker.update self player map rng).player.hp ≠ player.hp ↔
      (manhattan self.x self.y player.x player.y = 1 ∧ player.hp ≠ 0)) ∧
    (0 ≤ player.hp →
      ((Stalker.update self player map rng).player.hp ≠ player.hp ↔
        (manhattan self.x self.y player.x player.y = 1 ∧ 0 < player.hp))) ∧
    (manhattan self.x self.y player.x player.y = 1 →
      (Stalker.update self player map rng).player.hp = max 0 (player.hp - 25)) ∧
    (manhattan self.x self.y player.x player.y ≠ 1 →
      (Stalker.update self player map rng).player.hp = player.hp) ∧
    (Stalker.update self player map rng).player.x = player.x ∧
    (Stalker.update self player map rng).player.y = player.y ∧
    (Stalker.update self player map rng).player.scrapInBag = player.scrapInBag := by
  have hh := update_hp self player map rng hp.2
  have hf := update_player_frame self player map rng
  refine ⟨?_, fun h0 => ?_, fun h1 => ?_, fun h1 => ?_, hf.1, hf.2.1, hf.2.2⟩
  · rw [hh]
    by_cases h1 : manhattan self.x self.y player.x player.y = 1
    · rw [if_pos h1]
      rcases le_total 0 (player.hp - 25) with h | h
      · rw [max_eq_right h]; constructor
        · intro _; exact ⟨h1, by omega⟩
        · intro _; omega
      · rw [max_eq_left h]; constructor
        · intro hne; exact ⟨h1, fun h0 => hne h0.symm⟩
        · intro hne h0; exact hne.2 h0.symm
    · rw [if_neg h1]; constructor
      · intro hne; exact absurd rfl hne
      · intro h; exact absurd h.1 h1
  · rw [hh]
    by_cases h1 : manhattan self.x self.y player.x player.y = 1
    · rw [if_pos h1]
      rcases le_total 0 (player.hp - 25) with h | h
      · rw [max_eq_right h]; constructor
        · intro _; exact ⟨h1, by omega⟩
        · intro _; omega
      · rw [max_eq_left h]; constructor
        · intro hne
          refine ⟨h1, ?_⟩
          rcases lt_or_eq_of_le h0 with h2 | h2
          · exact h2
          · exact absurd h2 hne
        · intro hne h2; omega
    · rw [if_neg h1]; constructor
      · intro hne; exact absurd rfl hne
      · intro h; exact absurd h.1 h1
  · rw [hh, if_pos h1]
  · rw [hh, if_neg h1]

/-- C19 for a pursuer at `(5,2)` next to the player at `(5,1)` (health 100 becomes
75) and for a pursuer at `(6,2)`, diagonal to the player (health unchanged). -/
theorem C19_damage_iff_adjacent_witness :
    (Stalker.update ⟨5, 2, 'M'⟩ ⟨5, 1, 100, 0⟩ openFloor (fun _ => 1)).player.hp
      = max 0 (100 - 25) ∧
    (Stalker.update ⟨6, 2, 'M'⟩ ⟨5, 1, 100, 0⟩ openFloor (fun _ => 1)).player.hp = 100 :=
  ⟨(C19_damage_iff_adjacent ⟨5, 2, 'M'⟩ ⟨5, 1, 100, 0⟩ openFloor (fun _ => 1)
      (by decide)).2.2.1 (by decide),
    (C19_damage_iff_adjacent ⟨6, 2, 'M'⟩ ⟨5, 1, 100, 0⟩ openFloor (fun _ => 1)
      (by decide)).2.2.2.1 (by decide)⟩

theorem wanderTarget_dist (self : Monster) (px py : Int) (k : Nat) :
    manhattan self.x self.y px py - 1 ≤
        manhattan (Stalker.wanderTarget self k).1 (Stalker.wanderTarget self k).2 px py ∧
    (manhattan self.x self.y px py = 0 →
      manhattan (Stalker.wanderTarget self k).1 (Stalker.wanderTarget self k).2 px py = 1) := by
  rw [manhattan_eq, manhattan_eq]
  unfold Stalker.wanderTarget intAbs
  constructor
  · split_ifs <;> simp only [] at * <;> omega
  · intro h
    split_ifs at h ⊢ <;> simp only [] at * <;> omega

/-- C20: if `Stalker::update` changes the pursuer's position, the new position is
not the player's position; a pursuer at distance `≥ 6` ends at distance `≥ 5`, and
a pursuer on the player's cell (distance 0) that moves ends at distance 1. -/
theorem C20_never_onto_player (self : Monster) (player : Player) (map : Map) (rng : Rand) :
    (¬ ((Stalker.update self player map rng).self.x = self.x ∧
        (Stalker.update self player map rng).self.y = self.y) →
      ¬ ((Stalker.update self player map rng).self.x = player.x ∧
        (Stalker.update self player map rng).self.y = player.y)) ∧
    (6 ≤ manhattan self.x self.y player.x player.y →
      5 ≤ manhattan (Stalker.update self player map rng).self.x
        (Stalker.update self player map rng).self.y player.x player.y) ∧
    (manhattan self.x self.y player.x player.y = 0 →
      ¬ ((Stalker.update self player map rng).self.x = self.x ∧
        (Stalker.update self player map rng).self.y = self.y) →
      manhattan (Stalker.update self player map rng).self.x
        (Stalker.update self player map rng).self.y player.x player.y = 1) := by
  refine ⟨fun hmv => ?_, fun h6 => ?_, fun h0 hmv => ?_⟩
  · rcases update_stay_or_step self player map rng with ⟨hs, _⟩ | ⟨tx, ty, _, hne, hs, _, _⟩
    · rw [hs] at hmv; exact absurd ⟨rfl, rfl⟩ hmv
    · rw [hs]; exact hne
  · have hd := wanderTarget_dist self player.x player.y (rng 1 % 4)
    rw [update_of_wander self player map rng (Or.inr h6)]
    split_ifs
    · simp only []; omega
    · simp only []; omega
    · simp only []; omega
  · have hd := wanderTarget_dist self player.x player.y (rng 1 % 4)
    rw [update_of_wander self player map rng (Or.inl h0)] at hmv ⊢
    split_ifs at hmv ⊢
    · exact absurd ⟨rfl, rfl⟩ hmv
    · exact hd.2 h0
    · exact absurd ⟨rfl, rfl⟩ hmv

/-- C20 for a pursuer on the player's cell `(5,5)` with draws 1, 0: it steps up to
`(5,4)`, at distance 1 from the player. -/
theorem C20_never_onto_player_witness :
    manhattan (Stalker.update ⟨5, 5, 'M'⟩ ⟨5, 5, 100, 0⟩ openFloor (fun i => 1 - i)).self.x
      (Stalker.update ⟨5, 5, 'M'⟩ ⟨5, 5, 100, 0⟩ openFloor (fun i => 1 - i)).self.y 5 5 = 1 :=
  (C20_never_onto_player ⟨5, 5, 'M'⟩ ⟨5, 5, 100, 0⟩ openFloor (fun i => 1 - i)).2.2
    (by decide) (by decide)

/-! ## Map::load -/

theorem loadCell_eq (m : Map) (row : List Char) (y x : Nat) :
    m.loadCell row y x =
      { grid := fun j i => if j = (y : Int) ∧ i = (x : Int) then row[x]?.getD ' ' else m.grid j i,
        monsters := m.monsters ++ (if row[x]? = some 'M' then [Stalker.new x y] else []),
        startX := if row[x]? = some 'E' then (x : Int) else m.startX,
        startY := if row[x]? = some 'E' then (y : Int) else m.startY } := by
  unfold Map.loadCell Map.assignCell
  by_cases h : x < row.length
  · rw [dif_pos h]
    simp only [List.getElem?_eq_getElem h, Option.getD_some, Option.some.injEq]
    by_cases hE : row[x] = 'E'
    · have hM : ¬ row[x] = 'M' := by rw [hE]; decide
      simp [hE]
    · by_cases hM : row[x] = 'M'
      · simp [hM]
      · simp [hE, hM]
  · rw [dif_neg h]
    have hn : row[x]? = none := List.getElem?_eq_none (by omega)
    simp [hn]

theorem loadCols_grid (m : Map) (row : List Char) (y n : Nat) (j i : Int) :
    (m.loadCols row y n).grid j i =
      if j = (y : Int) ∧ 0 ≤ i ∧ i < (n : Int) then row[i.toNat]?.getD ' ' else m.grid j i := by
  induction n with
  | zero =>
    simp only [Map.loadCols]
    rw [if_neg (by omega)]
  | succ n ih =>
    simp only [Map.loadCols]
    rw [loadCell_eq]
    simp only []
    rw [ih]
    by_cases h1 : j = (y : Int) ∧ i = (n : Int)
    · rw [if_pos h1, if_pos ⟨h1.1, by omega, by omega⟩, h1.2]
      simp
    · rw [if_neg h1]
      by_cases h2 : j = (y : Int) ∧ 0 ≤ i ∧ i < (n : Int)
      · rw [if_pos h2, if_pos ⟨h2.1, h2.2.1, by omega⟩]
      · rw [if_neg h2, if_neg (by omega)]

theorem loadCols_monsters (m : Map) (row : List Char) (y n : Nat) :
    (m.loadCols row y n).monsters =
      m.monsters ++ ((List.range n).filter (fun x => row[x]? = some 'M')).map
        (fun x : Nat => Stalker.new (x : Int) (y : Int)) := by
  induction n with
  | zero => simp [Map.loadCols]
  | succ n ih =>
    simp only [Map.loadCols]
    rw [loadCell_eq]
    simp only []
    rw [ih, List.range_succ, List.filter_append, List.map_append, List.append_assoc]
    congr 1
    congr 1
    by_cases h : row[n]? = some 'M'
    · simp [h]
    · simp [h]

theorem loadCols_start (m : Map) (row : List Char) (y n : Nat) :
    ((m.loadCols row y n).startX, (m.loadCols row y n).startY) =
      match ((List.range n).filter (fun x => row[x]? = some 'E')).getLast? with
      | some x => ((x : Int), (y : Int))
      | none => (m.startX, m.startY) := by
  induction n with
  | zero => simp [Map.loadCols]
  | succ n ih =>
    simp only [Map.loadCols]
    rw [loadCell_eq]
    simp only []
    rw [List.range_succ, List.filter_append, List.getLast?_append]
    by_cases h : row[n]? = some 'E'
    · simp [h]
    · have h1 := congrArg Prod.fst ih
      have h2 := congrArg Prod.snd ih
      simp only [] at h1 h2
      simp only [h, if_false, h1, h2]
      simp [h]

theorem positionsIn_succ (lines : List (List Char)) (c : Char) (n : Nat) :
    positionsIn lines c (n + 1) =
      positionsIn lines c n ++ (columnsOf lines c n).map (fun x => (x, n)) := by
  unfold positionsIn
  rw [List.range_succ, List.flatMap_append]
  simp [List.flatMap]

theorem columnsOf_some (lines : List (List Char)) (c : Char) (y : Nat) (row : List Char)
    (h : lines[y]? = some row) :
    columnsOf lines c y = (List.range 40).filter (fun x => row[x]? = some c) := by
  unfold columnsOf sourceChar
  rw [h]
  rfl

theorem columnsOf_none (lines : List (List Char)) (c : Char) (y : Nat)
    (h : lines[y]? = none) : columnsOf lines c y = [] := by
  unfold columnsOf sourceChar
  rw [h]
  simp

theorem loadRows_monsters (m : Map) (lines : List (List Char)) (n : Nat) :
    (m.loadRows lines n).monsters =
      m.monsters ++ (positionsIn lines 'M' n).map
        (fun q : Nat × Nat => Stalker.new (q.1 : Int) (q.2 : Int)) := by
  induction n with
  | zero => simp [Map.loadRows, positionsIn]
  | succ n ih =>
    rw [positionsIn_succ, List.map_append, ← List.append_assoc, ← ih]
    simp only [Map.loadRows]
    cases h : lines[n]? with
    | none => simp [columnsOf_none lines 'M' n h]
    | some row =>
      simp only []
      rw [loadCols_monsters, columnsOf_some lines 'M' n row h, List.map_map]
      rfl

theorem loadRows_start (m : Map) (lines : List (List Char)) (n : Nat) :
    ((m.loadRows lines n).startX, (m.loadRows lines n).startY) =
      match (positionsIn lines 'E' n).getLast? with
      | some q => ((q.1 : Int), (q.2 : Int))
      | none => (m.startX, m.startY) := by
  induction n with
  | zero => simp [Map.loadRows, positionsIn]
  | succ n ih =>
    rw [positionsIn_succ, List.getLast?_append]
    simp only [Map.loadRows]
    cases h : lines[n]? with
    | none =>
      simp only [columnsOf_none lines 'E' n h, List.map_nil, List.getLast?_nil, Option.none_or]
      exact ih
    | some row =>
      simp only []
      rw [loadCols_start, columnsOf_some lines 'E' n row h, List.getLast?_map]
      cases hl : ((List.range 40).filter (fun x => row[x]? = some 'E')).getLast? with
      | none => simpa using ih
      | some x => simp

theorem loadRows_grid (m : Map) (lines : List (List Char)) (n : Nat) (j i : Int) :
    (m.loadRows lines n).grid j i =
      if 0 ≤ j ∧ j < (n : Int) ∧ j < (lines.length : Int) ∧ 0 ≤ i ∧ i < 40 then
        (sourceChar lines i.toNat j.toNat).getD ' '
      else m.grid j i := by
  induction n with
  | zero =>
    simp only [Map.loadRows]
    rw [if_neg (by omega)]
  | succ n ih =>
    simp only [Map.loadRows]
    cases h : lines[n]? with
    | none =>
      simp only []
      have hlen : lines.length ≤ n := List.getElem?_eq_none_iff.1 h
      rw [ih]
      by_cases hc : 0 ≤ j ∧ j < (n : Int) ∧ j < (lines.length : Int) ∧ 0 ≤ i ∧ i < 40
      · rw [if_pos hc, if_pos (by omega)]
      · rw [if_neg hc, if_neg (by omega)]
    | some row =>
      simp only []
      have hlen : n < lines.length := (List.getElem?_eq_some_iff.1 h).1
      rw [loadCols_grid, ih]
      by_cases h1 : j = (n : Int) ∧ 0 ≤ i ∧ i < ((40 : Nat) : Int)
      · rw [if_pos h1, if_pos (by omega)]
        have hj : j.toNat = n := by omega
        unfold sourceChar
        rw [hj, h]
        rfl
      · rw [if_neg h1]
        by_cases hc : 0 ≤ j ∧ j < (n : Int) ∧ j < (lines.length : Int) ∧ 0 ≤ i ∧ i < 40
        · rw [if_pos hc, if_pos (by omega)]
        · rw [if_neg hc, if_neg (by omega)]

theorem loadRows_of_length_le (m : Map) (lines : List (List Char)) (y : Nat)
    (h : lines.length ≤ y) : ∀ k, m.loadRows lines (y + k) = m.loadRows lines y := by
  intro k
  induction k with
  | zero => rfl
  | succ k ih =>
    have hn : lines[y + k]? = none := List.getElem?_eq_none (by omega)
    rw [← Nat.add_assoc]
    simp only [Map.loadRows, hn]
    exact ih

theorem loadFrom_loadRows (m : Map) (lines : List (List Char)) :
    ∀ k y, y + k = 14 →
      (m.loadRows lines y).loadFrom y (lines.drop y) = m.loadRows lines 14 := by
  intro k
  induction k with
  | zero =>
    intro y hy
    have : y = 14 := by omega
    subst this
    cases lines.drop 14 with
    | nil => rfl
    | cons row rest =>
      simp only [Map.loadFrom, MAP_HEIGHT]
      rw [if_neg (by omega)]
  | succ k ih =>
    intro y hy
    by_cases hlen : y < lines.length
    · rw [List.drop_eq_getElem_cons hlen]
      simp only [Map.loadFrom, MAP_HEIGHT]
      rw [if_pos (by omega)]
      have h1 : m.loadRows lines (y + 1) = (m.loadRows lines y).loadCols lines[y] y 40 := by
        simp only [Map.loadRows, List.getElem?_eq_getElem hlen]
      have h2 : MAP_WIDTH.toNat = 40 := rfl
      rw [h2, ← h1]
      exact ih (y + 1) (by omega)
    · rw [List.drop_eq_nil_of_le (by omega)]
      simp only [Map.loadFrom]
      have := loadRows_of_length_le m lines y (by omega) (k + 1)
      rw [hy] at this
      exact this.symm

/-- The method `Map::load` on a readable source, row by row. -/
theorem load_some (m : Map) (lines : List (List Char)) :
    m.load (some lines) = (true, ({ m with monsters := [] } : Map).loadRows lines 14) := by
  have h := loadFrom_loadRows ({ m with monsters := [] } : Map) lines 14 0 (by omega)
  rw [List.drop_zero] at h
  exact congrArg (Prod.mk true) h

theorem Map.eq_of_fields (a b : Map) (hg : a.grid = b.grid) (hm : a.monsters = b.monsters)
    (hx : a.startX = b.startX) (hy : a.startY = b.startY) : a = b := by
  cases a
  cases b
  simp only [Map.mk.injEq]
  exact ⟨hg, hm, hx, hy⟩

theorem load_grid (m : Map) (lines : List (List Char)) (j i : Int) :
    (m.load (some lines)).2.grid j i =
      if 0 ≤ j ∧ j < 14 ∧ j < (lines.length : Int) ∧ 0 ≤ i ∧ i < 40 then
        (sourceChar lines i.toNat j.toNat).getD ' '
      else m.grid j i := by
  rw [load_some]
  simp only []
  rw [loadRows_grid]
  rfl

theorem load_monsters (m : Map) (lines : List (List Char)) :
    (m.load (some lines)).2.monsters = spawnsOf lines := by
  rw [load_some]
  simp only []
  rw [loadRows_monsters]
  rfl

theorem load_start (m : Map) (lines : List (List Char)) :
    ((m.load (some lines)).2.startX, (m.load (some lines)).2.startY) =
      match (positionsOf lines 'E').getLast? with
      | some q => ((q.1 : Int), (q.2 : Int))
      | none => (m.startX, m.startY) := by
  rw [load_some]
  simp only []
  rw [loadRows_start]
  rfl

/-- The result of `Map::load` depends only on the number of rows up to 14 and on the
characters in the first 14 rows and 40 columns. -/
theorem load_congr (m : Map) (lines lines' : List (List Char))
    (hlen : min 14 lines'.length = min 14 lines.length)
    (hch : ∀ x y, x < 40 → y < 14 → sourceChar lines' x y = sourceChar lines x y) :
    m.load (some lines') = m.load (some lines) := by
  have hpos : ∀ c, positionsOf lines' c = positionsOf lines c := by
    intro c
    unfold positionsOf positionsIn
    apply List.flatMap_congr
    intro y hy
    have hy14 : y < 14 := List.mem_range.1 hy
    congr 1
    unfold columnsOf
    apply List.filter_congr
    intro x hx
    rw [hch x y (List.mem_range.1 hx) hy14]
  have h1 : (m.load (some lines')).1 = (m.load (some lines)).1 := by
    rw [load_some, load_some]
  have h2 : (m.load (some lines')).2 = (m.load (some lines)).2 := by
    apply Map.eq_of_fields
    · funext j i
      rw [load_grid, load_grid]
      by_cases hc : 0 ≤ j ∧ j < 14 ∧ j < (lines.length : Int) ∧ 0 ≤ i ∧ i < 40
      · rw [if_pos hc, if_pos (by omega), hch _ _ (by omega) (by omega)]
      · rw [if_neg hc, if_neg (by omega)]
    · rw [load_monsters, load_monsters]
      unfold spawnsOf
      rw [hpos]
    · have := congrArg Prod.fst (load_start m lines')
      have h' := congrArg Prod.fst (load_start m lines)
      rw [hpos] at this
      exact this.trans h'.symm
    · have := congrArg Prod.snd (load_start m lines')
      have h' := congrArg Prod.snd (load_start m lines)
      rw [hpos] at this
      exact this.trans h'.symm
  exact Prod.ext h1 h2

theorem sourceChar_window (lines : List (List Char)) (x y : Nat) (hx : x < 40) (hy : y < 14) :
    sourceChar ((lines.take 14).map (List.take 40)) x y = sourceChar lines x y := by
  unfold sourceChar
  rw [List.getElem?_map, List.getElem?_take_of_lt hy]
  cases lines[y]? with
  | none => rfl
  | some row => exact List.getElem?_take_of_lt hx

/-- C13: on a readable source `Map::load` returns success; every cell `(x, y)` with
`y < 14`, `x < 40` and `y` below the number of lines holds character `x` of line
`y` when the line is that long and a blank otherwise; the pursuer list is
exactly one `Stalker` per `'M'` of the window in row-major order; rows from the
14th on and characters from the 40th on do not matter.  On a source that cannot
be opened it returns failure and the map is unchanged. -/
theorem C13_load_content (m : Map) :
    (∀ lines : List (List Char),
      (m.load (some lines)).1 = true ∧
      (∀ (x y : Nat) (row : List Char), x < 40 → y < 14 → lines[y]? = some row →
        (x < row.length → row[x]? = some ((m.load (some lines)).2.getChar x y)) ∧
        (row.length ≤ x → (m.load (some lines)).2.getChar x y = ' ')) ∧
      (m.load (some lines)).2.monsters = spawnsOf lines ∧
      m.load (some ((lines.take 14).map (List.take 40))) = m.load (some lines)) ∧
    m.load none = (false, m) := by
  refine ⟨fun lines => ⟨by rw [load_some], fun x y row hx hy hrow => ?_, load_monsters m lines,
    ?_⟩, rfl⟩
  · have hlen : y < lines.length := (List.getElem?_eq_some_iff.1 hrow).1
    have hb : InBounds (x : Int) (y : Int) := by unfold InBounds; omega
    have hg : (m.load (some lines)).2.getChar x y = row[x]?.getD ' ' := by
      rw [getChar_of_inBounds _ _ _ hb, load_grid, if_pos (by omega)]
      unfold sourceChar
      simp only [Int.toNat_ofNat]
      rw [hrow]
      rfl
    rw [hg]
    constructor
    · intro h
      rw [List.getElem?_eq_getElem h]
      rfl
    · intro h
      rw [List.getElem?_eq_none h]
      rfl
  · apply load_congr
    · rw [List.length_map, List.length_take]
      omega
    · intro x y hx hy
      exact sourceChar_window lines x y hx hy

/-- C13 for the two-line source `#M.` / `E`: cell `(1,0)` holds `'M'` and cell
`(3,0)`, past the end of the first line, holds a blank. -/
theorem C13_load_content_witness :
    (some 'M' = some ((openFloor.load (some [['#', 'M', '.'], ['E']])).2.getChar 1 0)) ∧
    (openFloor.load (some [['#', 'M', '.'], ['E']])).2.getChar 3 0 = ' ' :=
  ⟨((C13_load_content openFloor).1 [['#', 'M', '.'], ['E']]).2.1 1 0 ['#', 'M', '.']
      (by decide) (by decide) rfl |>.1 (by decide),
    ((C13_load_content openFloor).1 [['#', 'M', '.'], ['E']]).2.1 3 0 ['#', 'M', '.']
      (by decide) (by decide) rfl |>.2 (by decide)⟩

/-- C12 fails as stated: for the one-line source `EE` the first `'E'` in row-major
order is at `(0,0)`, and `Map::load` records `(1,0)`. -/
theorem C12_entrance_counterexample :
    positionsOf [['E', 'E']] 'E' = [(0, 0), (1, 0)] ∧
    (openFloor.load (some [['E', 'E']])).1 = true ∧
    ((openFloor.load (some [['E', 'E']])).2.startX,
      (openFloor.load (some [['E', 'E']])).2.startY) = (1, 0) := by
  decide

/-- C12, amended: on a readable source whose first 14 rows and first 40 columns
contain one or more `'E'`, after `Map::load` the recorded spawn coordinate is the
position of the last `'E'` in row-major reading order; with exactly one `'E'` in
the window that is also the first. -/
theorem C12_entrance_amended (m : Map) (lines : List (List Char)) (q : Nat × Nat)
    (h : (positionsOf lines 'E').getLast? = some q) :
    (m.load (some lines)).2.startX = (q.1 : Int) ∧
    (m.load (some lines)).2.startY = (q.2 : Int) ∧
    ((positionsOf lines 'E').length = 1 → (positionsOf lines 'E').head? = some q) := by
  have hs := load_start m lines
  rw [h] at hs
  refine ⟨congrArg Prod.fst hs, congrArg Prod.snd hs, fun h1 => ?_⟩
  match hl : positionsOf lines 'E', h1 with
  | [a], _ =>
    rw [hl] at h
    exact h

/-- C12, amended, for the two-line source `E.E` / `.E`: the last `'E'` is at `(1,1)`. -/
theorem C12_entrance_amended_witness :
    (openFloor.load (some [['E', '.', 'E'], ['.', 'E']])).2.startX = 1 ∧
    (openFloor.load (some [['E', '.', 'E'], ['.', 'E']])).2.startY = 1 :=
  have h := C12_entrance_amended openFloor [['E', '.', 'E'], ['.', 'E']] (1, 1) (by decide)
  ⟨h.1, h.2.1⟩

/-! ## Pursuer separation -/

theorem mem_positionsIn (lines : List (List Char)) (c : Char) (n : Nat) (q : Nat × Nat) :
    q ∈ positionsIn lines c n ↔
      (q.2 < n ∧ q.1 < 40 ∧ sourceChar lines q.1 q.2 = some c) := by
  unfold positionsIn columnsOf
  simp only [List.mem_flatMap, List.mem_range, List.mem_map, List.mem_filter,
    decide_eq_true_eq]
  constructor
  · rintro ⟨y, hy, x, ⟨hx, hc⟩, rfl⟩
    exact ⟨hy, hx, hc⟩
  · rintro ⟨hy, hx, hc⟩
    exact ⟨q.2, hy, q.1, ⟨hx, hc⟩, rfl⟩

theorem nodup_positionsIn (lines : List (List Char)) (c : Char) (n : Nat) :
    (positionsIn lines c n).Pairwise (fun a b => a ≠ b) := by
  unfold positionsIn
  rw [List.pairwise_flatMap]
  constructor
  · intro y _
    rw [List.pairwise_map]
    unfold columnsOf
    apply List.Pairwise.filter
    apply (List.pairwise_lt_range 40).imp
    intro a b hab heq
    have := congrArg Prod.fst heq
    simp only [] at this
    omega
  · apply (List.pairwise_lt_range n).imp
    intro y1 y2 hlt a ha b hb heq
    rw [List.mem_map] at ha hb
    obtain ⟨x1, _, rfl⟩ := ha
    obtain ⟨x2, _, rfl⟩ := hb
    have := congrArg Prod.snd heq
    simp only [] at this
    omega

/-- After `Map::load` the pursuers are separated. -/
theorem separated_load (m : Map) (lines : List (List Char)) :
    Separated (m.load (some lines)).2.monsters (m.load (some lines)).2 := by
  rw [load_monsters]
  unfold Separated spawnsOf
  constructor
  · rw [List.pairwise_map]
    apply (nodup_positionsIn lines 'M' 14).imp
    intro a b hne heq
    apply hne
    simp only [Stalker.new] at heq
    exact Prod.ext (by omega) (by omega)
  · intro a ha
    rw [List.mem_map] at ha
    obtain ⟨q, hq, rfl⟩ := ha
    have hm := (mem_positionsIn lines 'M' 14 q).1 hq
    refine ⟨?_, rfl⟩
    have hlen : q.2 < lines.length := by
      unfold sourceChar at hm
      by_contra hc
      rw [List.getElem?_eq_none (by omega)] at hm
      exact absurd hm.2.2 (by simp)
    have hb : InBounds (q.1 : Int) (q.2 : Int) := by unfold InBounds; omega
    simp only [Stalker.new]
    rw [getChar_of_inBounds _ _ _ hb, load_grid, if_pos (by omega)]
    simp only [Int.toNat_ofNat]
    rw [hm.2.2]
    rfl

theorem separated_inBounds (ms : List Monster) (map : Map) (h : Separated ms map)
    (a : Monster) (ha : a ∈ ms) :
    InBounds a.x a.y ∧ map.isWall a.x a.y = false := by
  have hc := (h.2 a ha).1
  have hb : InBounds a.x a.y := inBounds_of_getChar_ne_blank map _ _ (by rw [hc]; decide)
  refine ⟨hb, ?_⟩
  rw [isWall_eq_false_iff]
  refine ⟨hb, ?_⟩
  rw [← getChar_of_inBounds map _ _ hb, hc]
  decide

/-- The method `Player::move` keeps the pursuers separated. -/
theorem separated_move (ms : List Monster) (p : Player) (c : Char) (map : Map)
    (h : Separated ms map) : Separated ms (p.move c map).2 := by
  refine ⟨h.1, fun a ha => ⟨?_, (h.2 a ha).2⟩⟩
  have hc := (h.2 a ha).1
  cases hw : map.isWall (p.moveTarget c).1 (p.moveTarget c).2
  · rw [move_of_not_wall p c map hw]
    split
    · rename_i hs
      simp only []
      rw [getChar_setChar_ne _ _ _ _ _ _ ?_]
      · exact hc
      · rintro ⟨hx, hy⟩
        rw [hx, hy, hs] at hc
        exact absurd hc (by decide)
    · exact hc
  · rw [move_of_wall p c map hw]; exact hc

/-- One `Stalker::update` keeps the pursuers separated, whatever the pursuers
before and after it in the list. -/
theorem separated_update (done rest : List Monster) (m : Monster) (player : Player)
    (map : Map) (rng : Rand) (h : Separated (done ++ m :: rest) map) :
    Separated (done ++ (Stalker.update m player map rng).self :: rest)
      (Stalker.update m player map rng).map := by
  have hsym : ∀ {a b : Monster}, ¬ (a.x = b.x ∧ a.y = b.y) → ¬ (b.x = a.x ∧ b.y = a.y) :=
    fun hab hba => hab ⟨hba.1.symm, hba.2.symm⟩
  rcases update_stay_or_step m player map rng with ⟨hs, hm⟩ | ⟨tx, ty, hf, _, hs, hm, _⟩
  · rw [hs, hm]; exact h
  · have hpw := (List.pairwise_middle hsym).1 h.1
    rw [List.pairwise_cons] at hpw
    have hmsym : m.symbol = 'M' := (h.2 m (by simp)).2
    have hbt : InBounds tx ty := (getChar_floor map tx ty hf).1
    have hothers : ∀ a ∈ done ++ rest,
        ¬ (a.x = m.x ∧ a.y = m.y) ∧ ¬ (a.x = tx ∧ a.y = ty) ∧
        map.getChar a.x a.y = 'M' ∧ a.symbol = 'M' := by
      intro a ha
      have hin : a ∈ done ++ m :: rest := by
        rcases List.mem_append.1 ha with h1 | h1
        · exact List.mem_append_left _ h1
        · exact List.mem_append_right _ (List.mem_cons_of_mem _ h1)
      have hc := h.2 a hin
      refine ⟨hsym (hpw.1 a ha), ?_, hc.1, hc.2⟩
      rintro ⟨hx, hy⟩
      rw [hx, hy, hf] at hc
      exact absurd hc.1 (by decide)
    rw [hs, hm]
    constructor
    · rw [List.pairwise_middle hsym, List.pairwise_cons]
      exact ⟨fun a ha => hsym (hothers a ha).2.1, hpw.2⟩
    · intro a ha
      rcases List.mem_append.1 ha with h1 | h1
      · have ho := hothers a (List.mem_append_left _ h1)
        rw [getChar_setChar_ne _ _ _ _ _ _ ho.2.1, getChar_setChar_ne _ _ _ _ _ _ ho.1]
        exact ⟨ho.2.2.1, ho.2.2.2⟩
      · rcases List.mem_cons.1 h1 with h2 | h2
        · rw [h2]
          simp only []
          rw [getChar_setChar_self _ _ _ _ hbt]
          exact ⟨hmsym, hmsym⟩
        · have ho := hothers a (List.mem_append_right _ h2)
          rw [getChar_setChar_ne _ _ _ _ _ _ ho.2.1, getChar_setChar_ne _ _ _ _ _ _ ho.1]
          exact ⟨ho.2.2.1, ho.2.2.2⟩

/-- The loop of `Map::updateMonsters` keeps the pursuers separated: those already
advanced (`done`), those the loop advances (`todo`) and those that come later. -/
theorem separated_updateEach (todo : List Monster) :
    ∀ (done later : List Monster) (player : Player) (map : Map) (rng : Rand),
      Separated (done ++ todo ++ later) map →
      Separated (done ++ (Map.updateEach todo player map rng).monsters ++ later)
        (Map.updateEach todo player map rng).map := by
  induction todo with
  | nil => intro done later player map rng h; exact h
  | cons m rest ih =>
    intro done later player map rng h
    have h0 : Separated (done ++ m :: (rest ++ later)) map := by
      simpa only [List.append_assoc, List.cons_append] using h
    have h1 := separated_update done (rest ++ later) m player map rng h0
    have h2 := ih (done ++ [(Stalker.update m player map rng).self]) later
      (Stalker.update m player map rng).player (Stalker.update m player map rng).map
      (Stalker.update m player map rng).rng
      (by simpa only [List.append_assoc, List.cons_append, List.nil_append] using h1)
    simpa only [Map.updateEach, List.append_assoc, List.cons_append, List.nil_append] using h2

theorem separated_updateMonsters (map : Map) (player : Player) (rng : Rand)
    (h : Separated map.monsters map) :
    Separated (map.updateMonsters player rng).2.1.monsters (map.updateMonsters player rng).2.1 := by
  have := separated_updateEach map.monsters [] [] player map rng
    (by simpa only [List.nil_append, List.append_nil] using h)
  simpa only [List.nil_append, List.append_nil] using this

theorem separated_apply (s : Player × Map) (e : Event) (h : Separated s.2.monsters s.2) :
    Separated (e.apply s).2.monsters (e.apply s).2 := by
  cases e with
  | move input =>
    have h1 := separated_move s.2.monsters s.1 input s.2 h
    have hm : (s.1.move input s.2).2.monsters = s.2.monsters := by
      cases hw : s.2.isWall (s.1.moveTarget input).1 (s.1.moveTarget input).2
      · rw [move_of_not_wall s.1 input s.2 hw]
        split
        · exact (setChar_monsters _ _ _ _).1
        · rfl
      · rw [move_of_wall s.1 input s.2 hw]
    show Separated (s.1.move input s.2).2.monsters (s.1.move input s.2).2
    rw [hm]
    exact h1
  | monsters rng => exact separated_updateMonsters s.2 s.1 rng h

theorem separated_run (evs : List Event) :
    ∀ s : Player × Map, Separated s.2.monsters s.2 →
      Separated (runEvents s evs).2.monsters (runEvents s evs).2 := by
  induction evs with
  | nil => intro s h; exact h
  | cons e rest ih => intro s h; exact ih _ (separated_apply s e h)

/-- C11: in every state reached from a freshly loaded map by any sequence of
`Player::move` and `Map::updateMonsters` calls, with any random results, the
pursuers occupy pairwise distinct in-bounds cells, none of which is a Wall cell,
and each pursuer's cell holds the pursuer symbol `'M'`. -/
theorem C11_pursuer_separation (old : Map) (lines : List (List Char)) (p : Player)
    (evs : List Event) :
    (runEvents (p, (old.load (some lines)).2) evs).2.monsters.Pairwise
      (fun a b => ¬ (a.x = b.x ∧ a.y = b.y)) ∧
    ∀ a ∈ (runEvents (p, (old.load (some lines)).2) evs).2.monsters,
      InBounds a.x a.y ∧
      (runEvents (p, (old.load (some lines)).2) evs).2.isWall a.x a.y = false ∧
      (runEvents (p, (old.load (some lines)).2) evs).2.getChar a.x a.y = 'M' := by
  have h := separated_run evs (p, (old.load (some lines)).2) (separated_load old lines)
  refine ⟨h.1, fun a ha => ?_⟩
  have hb := separated_inBounds _ _ h a ha
  exact ⟨hb.1, hb.2, (h.2 a ha).1⟩

/-! ## The loop of Map::updateMonsters -/

/-- The loop over a list `pre ++ post` is the loop over `pre` followed by the loop
over `post`, started from the player, map and random stream left by `pre`. -/
theorem updateEach_append (pre post : List Monster) :
    ∀ (player : Player) (map : Map) (rng : Rand),
      Map.updateEach (pre ++ post) player map rng =
        ⟨(Map.updateEach pre player map rng).monsters ++
            (Map.updateEach post (Map.updateEach pre player map rng).player
              (Map.updateEach pre player map rng).map
              (Map.updateEach pre player map rng).rng).monsters,
          (Map.updateEach post (Map.updateEach pre player map rng).player
            (Map.updateEach pre player map rng).map
            (Map.updateEach pre player map rng).rng).player,
          (Map.updateEach post (Map.updateEach pre player map rng).player
            (Map.updateEach pre player map rng).map
            (Map.updateEach pre player map rng).rng).map,
          (Map.updateEach post (Map.updateEach pre player map rng).player
            (Map.updateEach pre player map rng).map
            (Map.updateEach pre player map rng).rng).rng⟩ := by
  induction pre with
  | nil => intro player map rng; rfl
  | cons m rest ih =>
    intro player map rng
    have e : ∀ l : List Monster, Map.updateEach (m :: l) player map rng =
        ⟨(Stalker.update m player map rng).self ::
            (Map.updateEach l (Stalker.update m player map rng).player
              (Stalker.update m player map rng).map (Stalker.update m player map rng).rng).monsters,
          (Map.updateEach l (Stalker.update m player map rng).player
              (Stalker.update m player map rng).map (Stalker.update m player map rng).rng).player,
          (Map.updateEach l (Stalker.update m player map rng).player
              (Stalker.update m player map rng).map (Stalker.update m player map rng).rng).map,
          (Map.updateEach l (Stalker.update m player map rng).player
              (Stalker.update m player map rng).map (Stalker.update m player map rng).rng).rng⟩ :=
      fun _ => rfl
    rw [List.cons_append, e, e, ih]
    rfl

theorem updateEach_length (ms : List Monster) :
    ∀ (player : Player) (map : Map) (rng : Rand),
      (Map.updateEach ms player map rng).monsters.length = ms.length := by
  induction ms with
  | nil => intro _ _ _; rfl
  | cons m rest ih =>
    intro player map rng
    simp only [Map.updateEach, List.length_cons]
    rw [ih]

theorem update_hp_le (self : Monster) (player : Player) (map : Map) (rng : Rand) :
    (Stalker.update self player map rng).player.hp ≤ max player.hp 0 ∧
    (0 ≤ player.hp → 0 ≤ (Stalker.update self player map rng).player.hp) := by
  unfold Stalker.update
  simp only []
  split_ifs <;> simp only [Player.takeDamage] <;> constructor <;>
    first
    | exact le_max_left _ _
    | (intro h; exact h)
    | (split_ifs <;> first | exact le_max_right _ _ | (apply le_trans _ (le_max_left _ _); omega))
    | (intro h; split_ifs <;> omega)

/-- The loop of `Map::updateMonsters` changes at most the health of the player,
and keeps a health in `[0,100]` in `[0,100]`. -/
theorem updateEach_player (ms : List Monster) :
    ∀ (player : Player) (map : Map) (rng : Rand),
      (Map.updateEach ms player map rng).player.x = player.x ∧
      (Map.updateEach ms player map rng).player.y = player.y ∧
      (Map.updateEach ms player map rng).player.scrapInBag = player.scrapInBag ∧
      (0 ≤ player.hp → player.hp ≤ 100 →
        0 ≤ (Map.updateEach ms player map rng).player.hp ∧
        (Map.updateEach ms player map rng).player.hp ≤ 100) := by
  induction ms with
  | nil => intro player map rng; exact ⟨rfl, rfl, rfl, fun h0 h1 => ⟨h0, h1⟩⟩
  | cons m rest ih =>
    intro player map rng
    have hf := update_player_frame m player map rng
    have hh := update_hp_le m player map rng
    have h := ih (Stalker.update m player map rng).player (Stalker.update m player map rng).map
      (Stalker.update m player map rng).rng
    simp only [Map.updateEach]
    refine ⟨h.1.trans hf.1, h.2.1.trans hf.2.1, h.2.2.1.trans hf.2.2, fun h0 h1 => ?_⟩
    apply h.2.2.2 (hh.2 h0)
    have := hh.1
    rw [max_eq_left h0] at this
    omega

/-! ## One tick of Game::startDay -/

theorem tick_quit (g : Game) (rng : Rand) :
    g.tick 'q' rng = ⟨{ g with gameRunning := false }, rng, true⟩ := by
  unfold Game.tick
  rw [if_pos rfl]

theorem tick_exit_accepted (g : Game) (rng : Rand)
    (h : g.player.x = g.map.startX ∧ g.player.y = g.map.startY) :
    g.tick 'e' rng = ⟨{ g with totalScrap := g.totalScrap + g.player.scrapInBag }, rng, true⟩ := by
  unfold Game.tick
  rw [if_neg (by decide), if_pos ⟨rfl, h⟩]

/-- A tick that is neither quit nor an accepted exit: move stage, pursuers, death
check. -/
theorem tick_play (g : Game) (input : Char) (rng : Rand) (hq : input ≠ 'q')
    (he : ¬ (input = 'e' ∧ g.player.x = g.map.startX ∧ g.player.y = g.map.startY)) :
    g.tick input rng =
      ⟨{ g with
          player := Game.deathCheck
            ((g.moveStage input).2.updateMonsters (g.moveStage input).1 rng).1,
          map := ((g.moveStage input).2.updateMonsters (g.moveStage input).1 rng).2.1 },
        ((g.moveStage input).2.updateMonsters (g.moveStage input).1 rng).2.2, false⟩ := by
  unfold Game.tick
  rw [if_neg hq, if_neg he]

theorem moveStage_exit (g : Game) : g.moveStage 'e' = (g.player, g.map) := by
  unfold Game.moveStage
  rw [if_neg (by decide)]

theorem deathCheck_frame (p : Player) :
    (Game.deathCheck p).x = p.x ∧ (Game.deathCheck p).y = p.y ∧
    (Game.deathCheck p).isAlive = true ∧
    (p.hp ≤ 0 → (Game.deathCheck p).hp = 100 ∧ (Game.deathCheck p).scrapInBag = 0) ∧
    (0 < p.hp → Game.deathCheck p = p) := by
  by_cases h : p.hp > 0
  · have e : Game.deathCheck p = p := by
      unfold Game.deathCheck Player.isAlive
      simp [h]
    rw [e]
    exact ⟨rfl, rfl, by unfold Player.isAlive; simp [h], fun h' => absurd h (by omega),
      fun _ => rfl⟩
  · have e : Game.deathCheck p = { p with scrapInBag := 0, hp := 100 } := by
      unfold Game.deathCheck Player.isAlive
      simp [h]
    rw [e]
    exact ⟨rfl, rfl, rfl, fun _ => ⟨rfl, rfl⟩, fun h' => absurd h' h⟩

theorem updateMonsters_player (map : Map) (player : Player) (rng : Rand) :
    (map.updateMonsters player rng).1 = (Map.updateEach map.monsters player map rng).player :=
  rfl

/-- C14: in one tick of `Game::startDay`, the command `e` makes `startDay` return
exactly when the player stands on the recorded Entrance `(startX, startY)`; then
the banked total grows by the carried count (the total, the count and their sum
being `int` values) and nothing else changes (player, map, pursuers, random
stream, `day`, `quota`, `gameRunning`); an `e` elsewhere does not return,
leaves the player's position, the banked total and `gameRunning` unchanged and
the loop test still holds; the command `q` returns with `gameRunning` false and
everything else unchanged. -/
theorem C14_exit_quit (g : Game) (rng : Rand) :
    ((g.tick 'e' rng).returned = true ↔
      (g.player.x = g.map.startX ∧ g.player.y = g.map.startY)) ∧
    ((g.player.x = g.map.startX ∧ g.player.y = g.map.startY) →
      (FitsInt g.totalScrap → FitsInt g.player.scrapInBag →
        FitsInt (g.totalScrap + g.player.scrapInBag) →
        (g.tick 'e' rng).game.totalScrap = g.totalScrap + g.player.scrapInBag) ∧
      (g.tick 'e' rng).game.player = g.player ∧
      (g.tick 'e' rng).game.map = g.map ∧
      (g.tick 'e' rng).game.day = g.day ∧
      (g.tick 'e' rng).game.quota = g.quota ∧
      (g.tick 'e' rng).game.gameRunning = g.gameRunning ∧
      (g.tick 'e' rng).rng = rng) ∧
    (¬ (g.player.x = g.map.startX ∧ g.player.y = g.map.startY) →
      (g.tick 'e' rng).game.player.x = g.player.x ∧
      (g.tick 'e' rng).game.player.y = g.player.y ∧
      (g.tick 'e' rng).game.totalScrap = g.totalScrap ∧
      (g.tick 'e' rng).game.gameRunning = g.gameRunning ∧
      (g.gameRunning = true → (g.tick 'e' rng).game.loopTest = true)) ∧
    ((g.tick 'q' rng).returned = true ∧
      (g.tick 'q' rng).game = { g with gameRunning := false } ∧
      (g.tick 'q' rng).rng = rng) := by
  have hplay : ¬ (g.player.x = g.map.startX ∧ g.player.y = g.map.startY) →
      g.tick 'e' rng =
        ⟨{ g with
            player := Game.deathCheck (g.map.updateMonsters g.player rng).1,
            map := (g.map.updateMonsters g.player rng).2.1 },
          (g.map.updateMonsters g.player rng).2.2, false⟩ := by
    intro h
    rw [tick_play g 'e' rng (by decide) (fun h' => h h'.2), moveStage_exit]
  refine ⟨?_, fun h => ?_, fun h => ?_, ?_⟩
  · by_cases h : g.player.x = g.map.startX ∧ g.player.y = g.map.startY
    · rw [tick_exit_accepted g rng h]
      exact ⟨fun _ => h, fun _ => rfl⟩
    · rw [hplay h]
      exact ⟨fun h' => (Bool.false_ne_true h').elim, fun h' => absurd h' h⟩
  · rw [tick_exit_accepted g rng h]
    exact ⟨fun _ _ _ => rfl, rfl, rfl, rfl, rfl, rfl, rfl⟩
  · rw [hplay h]
    have hd := deathCheck_frame (g.map.updateMonsters g.player rng).1
    have hu := updateEach_player g.map.monsters g.player g.map rng
    rw [← updateMonsters_player] at hu
    refine ⟨hd.1.trans hu.1, hd.2.1.trans hu.2.1, rfl, rfl, fun hr => ?_⟩
    unfold Game.loopTest
    simp only []
    rw [hr, hd.2.2.1]
    rfl
  · rw [tick_quit]
    exact ⟨rfl, rfl, rfl⟩

/-- C14 for a player at the Entrance `(1,1)` carrying 3 with 4 banked: `e` returns
with 7 banked. -/
theorem C14_exit_quit_witness :
    (Game.tick ⟨⟨1, 1, 100, 3⟩, openFloor, 1, 5, 4, true⟩ 'e' (fun _ => 0)).game.totalScrap = 7 :=
  (((C14_exit_quit ⟨⟨1, 1, 100, 3⟩, openFloor, 1, 5, 4, true⟩ (fun _ => 0)).2.1
      (by decide)).1 (by decide) (by decide) (by decide)).trans (by decide)

/-- C16: starting a tick of `Game::startDay` that is neither quit nor an accepted
exit with health in `[0,100]` and a carried count `≥ 0` below the largest `int`
(2147483647, so that one pickup does not overflow): after the move and after
each pursuer update the health is in `[0,100]` and the carried count a
non-negative `int` value; if the pursuer updates leave health 0 the death
check sets the carried count to 0 and the health to 100; at the end of the tick
the health is in `[1,100]` and the carried count a non-negative `int` value. -/
theorem C16_death_recovery (g : Game) (input : Char) (rng : Rand)
    (hhp : 0 ≤ g.player.hp ∧ g.player.hp ≤ 100)
    (hs : 0 ≤ g.player.scrapInBag ∧ g.player.scrapInBag < 2147483647)
    (hq : input ≠ 'q')
    (he : ¬ (input = 'e' ∧ g.player.x = g.map.startX ∧ g.player.y = g.map.startY)) :
    (g.tick input rng).returned = false ∧
    (g.tick input rng).game.player = Game.deathCheck
      ((g.moveStage input).2.updateMonsters (g.moveStage input).1 rng).1 ∧
    (0 ≤ (g.moveStage input).1.hp ∧ (g.moveStage input).1.hp ≤ 100 ∧
      0 ≤ (g.moveStage input).1.scrapInBag ∧ FitsInt (g.moveStage input).1.scrapInBag) ∧
    (∀ k : Nat,
      0 ≤ (Map.updateEach ((g.moveStage input).2.monsters.take k) (g.moveStage input).1
            (g.moveStage input).2 rng).player.hp ∧
      (Map.updateEach ((g.moveStage input).2.monsters.take k) (g.moveStage input).1
            (g.moveStage input).2 rng).player.hp ≤ 100 ∧
      0 ≤ (Map.updateEach ((g.moveStage input).2.monsters.take k) (g.moveStage input).1
            (g.moveStage input).2 rng).player.scrapInBag ∧
      FitsInt (Map.updateEach ((g.moveStage input).2.monsters.take k) (g.moveStage input).1
            (g.moveStage input).2 rng).player.scrapInBag) ∧
    (((g.moveStage input).2.updateMonsters (g.moveStage input).1 rng).1.hp = 0 →
      (g.tick input rng).game.player.scrapInBag = 0 ∧
      (g.tick input rng).game.player.hp = 100) ∧
    (1 ≤ (g.tick input rng).game.player.hp ∧ (g.tick input rng).game.player.hp ≤ 100 ∧
      0 ≤ (g.tick input rng).game.player.scrapInBag ∧
      FitsInt (g.tick input rng).game.player.scrapInBag) := by
  have hfit : ∀ c : Int, 0 ≤ c → c ≤ 2147483647 → FitsInt c := by
    intro c h0 h1
    unfold FitsInt
    omega
  have hmv : 0 ≤ (g.moveStage input).1.hp ∧ (g.moveStage input).1.hp ≤ 100 ∧
      0 ≤ (g.moveStage input).1.scrapInBag ∧ FitsInt (g.moveStage input).1.scrapInBag := by
    unfold Game.moveStage
    split
    · cases hw : g.map.isWall (g.player.moveTarget input).1 (g.player.moveTarget input).2
      · rw [move_of_not_wall g.player input g.map hw]
        split
        · exact ⟨hhp.1, hhp.2, by simp only []; omega,
            hfit _ (by simp only []; omega) (by simp only []; omega)⟩
        · exact ⟨hhp.1, hhp.2, hs.1, hfit _ hs.1 (by simp only []; omega)⟩
      · rw [move_of_wall g.player input g.map hw]
        exact ⟨hhp.1, hhp.2, hs.1, hfit _ hs.1 (by simp only []; omega)⟩
    · exact ⟨hhp.1, hhp.2, hs.1, hfit _ hs.1 (by simp only []; omega)⟩
  have hpre : ∀ ms : List Monster,
      0 ≤ (Map.updateEach ms (g.moveStage input).1 (g.moveStage input).2 rng).player.hp ∧
      (Map.updateEach ms (g.moveStage input).1 (g.moveStage input).2 rng).player.hp ≤ 100 ∧
      0 ≤ (Map.updateEach ms (g.moveStage input).1 (g.moveStage input).2 rng).player.scrapInBag ∧
      FitsInt
        (Map.updateEach ms (g.moveStage input).1 (g.moveStage input).2 rng).player.scrapInBag := by
    intro ms
    have hu := updateEach_player ms (g.moveStage input).1 (g.moveStage input).2 rng
    have hb := hu.2.2.2 hmv.1 hmv.2.1
    refine ⟨hb.1, hb.2, ?_, ?_⟩
    · rw [hu.2.2.1]
      exact hmv.2.2.1
    · rw [hu.2.2.1]
      exact hmv.2.2.2
  have hall := hpre (g.moveStage input).2.monsters
  rw [← updateMonsters_player] at hall
  have hd := deathCheck_frame ((g.moveStage input).2.updateMonsters (g.moveStage input).1 rng).1
  rw [tick_play g input rng hq he]
  refine ⟨rfl, rfl, hmv, fun k => hpre _, fun h0 => ?_, ?_⟩
  · have := hd.2.2.2.1 (by omega)
    exact ⟨this.2, this.1⟩
  · simp only []
    rcases lt_or_ge 0 ((g.moveStage input).2.updateMonsters (g.moveStage input).1 rng).1.hp
      with h | h
    · rw [hd.2.2.2.2 h]
      exact ⟨by omega, hall.2.1, hall.2.2.1, hall.2.2.2⟩
    · have := hd.2.2.2.1 h
      rw [this.1, this.2]
      exact ⟨by decide, by decide, by decide, by decide⟩

/-- C16 for a player at `(5,1)` with health 20 carrying 3, a pursuer at `(5,2)` and
the command `x`: the attack leaves health 0, and the tick ends with health 100
and carried count 0. -/
theorem C16_death_recovery_witness :
    (Game.tick ⟨⟨5, 1, 20, 3⟩, floorOf [Stalker.new 5 2], 1, 5, 0, true⟩ 'x'
        (fun _ => 0)).game.player.scrapInBag = 0 ∧
    (Game.tick ⟨⟨5, 1, 20, 3⟩, floorOf [Stalker.new 5 2], 1, 5, 0, true⟩ 'x'
        (fun _ => 0)).game.player.hp = 100 :=
  (C16_death_recovery ⟨⟨5, 1, 20, 3⟩, floorOf [Stalker.new 5 2], 1, 5, 0, true⟩ 'x'
    (fun _ => 0) (by decide) (by decide) (by decide) (by decide)).2.2.2.2.1 (by decide)

/-! ## Pursuers are advanced one after another -/

theorem chaseTarget_congr (self : Monster) (p q : Player) (hx : q.x = p.x) (hy : q.y = p.y) :
    Stalker.chaseTarget self q = Stalker.chaseTarget self p := by
  unfold Stalker.chaseTarget
  rw [hx, hy]

theorem chasing_congr (self : Monster) (p q : Player) (hx : q.x = p.x) (hy : q.y = p.y)
    (h : Chasing self p) : Chasing self q := by
  unfold Chasing at h ⊢
  rw [hx, hy]
  exact h

/-- A chasing pursuer whose target holds Floor and is not the player's cell moves
onto it. -/
theorem update_chase_step (self : Monster) (player : Player) (map : Map) (rng : Rand)
    (tx ty : Int) (hd : Chasing self player)
    (ht : Stalker.chaseTarget self player = (tx, ty))
    (hne : ¬ (tx = player.x ∧ ty = player.y)) (hf : map.getChar tx ty = '.') :
    (Stalker.update self player map rng).self = { self with x := tx, y := ty } := by
  rw [update_of_chase self player map rng hd, ht]
  simp only []
  rw [if_neg (by rw [(getChar_floor map tx ty hf).2]; decide), if_neg hne, if_pos hf]

/-- A chasing pursuer whose target does not hold Floor and is not the player's
cell stays where it is. -/
theorem update_chase_blocked (self : Monster) (player : Player) (map : Map) (rng : Rand)
    (tx ty : Int) (hd : Chasing self player)
    (ht : Stalker.chaseTarget self player = (tx, ty))
    (hne : ¬ (tx = player.x ∧ ty = player.y)) (hf : map.getChar tx ty ≠ '.') :
    (Stalker.update self player map rng).self = self := by
  rw [update_of_chase self player map rng hd, ht]
  simp only []
  rw [if_neg hne, if_neg hf]
  split <;> rfl

theorem afterFirst_succ (map : Map) (player : Player) (rng : Rand) (k : Nat)
    (hk : k < map.monsters.length) :
    afterFirst (k + 1) map player rng =
      ⟨(afterFirst k map player rng).monsters ++
          [(Stalker.update map.monsters[k] (afterFirst k map player rng).player
            (afterFirst k map player rng).map (afterFirst k map player rng).rng).self],
        (Stalker.update map.monsters[k] (afterFirst k map player rng).player
          (afterFirst k map player rng).map (afterFirst k map player rng).rng).player,
        (Stalker.update map.monsters[k] (afterFirst k map player rng).player
          (afterFirst k map player rng).map (afterFirst k map player rng).rng).map,
        (Stalker.update map.monsters[k] (afterFirst k map player rng).player
          (afterFirst k map player rng).map (afterFirst k map player rng).rng).rng⟩ := by
  unfold afterFirst
  rw [List.take_succ, List.getElem?_eq_getElem hk, Option.toList_some, updateEach_append]
  rfl

theorem updateEach_cons (m : Monster) (rest : List Monster) (player : Player) (map : Map)
    (rng : Rand) :
    (Map.updateEach (m :: rest) player map rng).monsters =
      (Stalker.update m player map rng).self ::
        (Map.updateEach rest (Stalker.update m player map rng).player
          (Stalker.update m player map rng).map (Stalker.update m player map rng).rng).monsters :=
  rfl

/-- Two chasing pursuers `a` (earlier) and `b` (later) with the same chase target,
which is not the player's cell and holds Floor when `a` is advanced: `a` moves
onto it and `b` stays. -/
theorem updateEach_two_chasers (pre mid post : List Monster) (a b : Monster)
    (player : Player) (map : Map) (rng : Rand) (tx ty : Int)
    (hsep : Separated (pre ++ a :: (mid ++ b :: post)) map)
    (ha : Chasing a player) (hb : Chasing b player)
    (hta : Stalker.chaseTarget a player = (tx, ty))
    (htb : Stalker.chaseTarget b player = (tx, ty))
    (hne : ¬ (tx = player.x ∧ ty = player.y))
    (hf : (Map.updateEach pre player map rng).map.getChar tx ty = '.') :
    ∃ pre' mid' post' : List Monster,
      pre'.length = pre.length ∧ mid'.length = mid.length ∧ post'.length = post.length ∧
      (Map.updateEach (pre ++ a :: (mid ++ b :: post)) player map rng).monsters =
        pre' ++ { a with x := tx, y := ty } :: (mid' ++ b :: post') := by
  -- the state when `a` is advanced
  have hsp := updateEach_player pre player map rng
  have hsep1 : Separated ((Map.updateEach pre player map rng).monsters ++
      a :: (mid ++ b :: post)) (Map.updateEach pre player map rng).map := by
    have := separated_updateEach pre [] (a :: (mid ++ b :: post)) player map rng
      (by simpa only [List.nil_append] using hsep)
    simpa only [List.nil_append] using this
  have hne1 : ¬ (tx = (Map.updateEach pre player map rng).player.x ∧
      ty = (Map.updateEach pre player map rng).player.y) := by
    rw [hsp.1, hsp.2.1]; exact hne
  have hu := update_chase_step a (Map.updateEach pre player map rng).player
    (Map.updateEach pre player map rng).map (Map.updateEach pre player map rng).rng tx ty
    (chasing_congr a player _ hsp.1 hsp.2.1 ha)
    ((chaseTarget_congr a player _ hsp.1 hsp.2.1).trans hta) hne1 hf
  have hup := update_player_frame a (Map.updateEach pre player map rng).player
    (Map.updateEach pre player map rng).map (Map.updateEach pre player map rng).rng
  have hsep2 := separated_update (Map.updateEach pre player map rng).monsters
    (mid ++ b :: post) a (Map.updateEach pre player map rng).player
    (Map.updateEach pre player map rng).map (Map.updateEach pre player map rng).rng hsep1
  -- abbreviations for the state after `a`
  generalize hU : Stalker.update a (Map.updateEach pre player map rng).player
    (Map.updateEach pre player map rng).map (Map.updateEach pre player map rng).rng = u
    at hu hup hsep2
  have hupx : u.player.x = player.x := hup.1.trans hsp.1
  have hupy : u.player.y = player.y := hup.2.1.trans hsp.2.1
  -- the pursuers between `a` and `b`
  have hvp := updateEach_player mid u.player u.map u.rng
  have hsep3 := separated_updateEach mid ((Map.updateEach pre player map rng).monsters ++ [u.self])
    (b :: post) u.player u.map u.rng
    (by simpa only [List.append_assoc, List.cons_append, List.nil_append] using hsep2)
  have hM : (Map.updateEach mid u.player u.map u.rng).map.getChar tx ty = 'M' := by
    have := (hsep3.2 u.self (by simp)).1
    rw [hu] at this
    exact this
  have hvx : (Map.updateEach mid u.player u.map u.rng).player.x = player.x := hvp.1.trans hupx
  have hvy : (Map.updateEach mid u.player u.map u.rng).player.y = player.y := hvp.2.1.trans hupy
  have hne2 : ¬ (tx = (Map.updateEach mid u.player u.map u.rng).player.x ∧
      ty = (Map.updateEach mid u.player u.map u.rng).player.y) := by
    rw [hvx, hvy]; exact hne
  have hw := update_chase_blocked b (Map.updateEach mid u.player u.map u.rng).player
    (Map.updateEach mid u.player u.map u.rng).map (Map.updateEach mid u.player u.map u.rng).rng
    tx ty (chasing_congr b player _ hvx hvy hb)
    ((chaseTarget_congr b player _ hvx hvy).trans htb) hne2 (by rw [hM]; decide)
  -- the list of updated pursuers
  refine ⟨(Map.updateEach pre player map rng).monsters,
    (Map.updateEach mid u.player u.map u.rng).monsters,
    (Map.updateEach post
      (Stalker.update b (Map.updateEach mid u.player u.map u.rng).player
        (Map.updateEach mid u.player u.map u.rng).map
        (Map.updateEach mid u.player u.map u.rng).rng).player
      (Stalker.update b (Map.updateEach mid u.player u.map u.rng).player
        (Map.updateEach mid u.player u.map u.rng).map
        (Map.updateEach mid u.player u.map u.rng).rng).map
      (Stalker.update b (Map.updateEach mid u.player u.map u.rng).player
        (Map.updateEach mid u.player u.map u.rng).map
        (Map.updateEach mid u.player u.map u.rng).rng).rng).monsters,
    updateEach_length _ _ _ _, updateEach_length _ _ _ _, updateEach_length _ _ _ _, ?_⟩
  rw [updateEach_append]
  simp only []
  rw [updateEach_cons, hU, updateEach_append]
  simp only []
  rw [updateEach_cons, hw, hu]

/-- C17 fails as stated, in two ways.  (1) Pursuers at `(4,5)` and `(6,5)` on either
side of a player at `(5,5)`: both chase, both have the Floor cell `(5,5)` as
target, and after `Map::updateMonsters` both are where they were (the player was
hit twice).  (2) Pursuers `[(6,5), (4,5), (5,6)]`, the player at `(6,5)` on top of
the first one, draws 1, 2: the second and third chase with the Floor cell `(5,5)`
as target, the first wanders onto it, and the second is still at `(4,5)`. -/
theorem C17_sequential_counterexample :
    (Chasing (Stalker.new 4 5) ⟨5, 5, 100, 0⟩ ∧ Chasing (Stalker.new 6 5) ⟨5, 5, 100, 0⟩ ∧
      Stalker.chaseTarget (Stalker.new 4 5) ⟨5, 5, 100, 0⟩ = (5, 5) ∧
      Stalker.chaseTarget (Stalker.new 6 5) ⟨5, 5, 100, 0⟩ = (5, 5) ∧
      (floorOf [Stalker.new 4 5, Stalker.new 6 5]).getChar 5 5 = '.' ∧
      ((floorOf [Stalker.new 4 5, Stalker.new 6 5]).updateMonsters ⟨5, 5, 100, 0⟩
        (fun _ => 0)).2.1.monsters = [Stalker.new 4 5, Stalker.new 6 5] ∧
      ((floorOf [Stalker.new 4 5, Stalker.new 6 5]).updateMonsters ⟨5, 5, 100, 0⟩
        (fun _ => 0)).1.hp = 50) ∧
    (Chasing (Stalker.new 4 5) ⟨6, 5, 100, 0⟩ ∧ Chasing (Stalker.new 5 6) ⟨6, 5, 100, 0⟩ ∧
      Stalker.chaseTarget (Stalker.new 4 5) ⟨6, 5, 100, 0⟩ = (5, 5) ∧
      Stalker.chaseTarget (Stalker.new 5 6) ⟨6, 5, 100, 0⟩ = (5, 5) ∧
      (floorOf [Stalker.new 6 5, Stalker.new 4 5, Stalker.new 5 6]).getChar 5 5 = '.' ∧
      ((floorOf [Stalker.new 6 5, Stalker.new 4 5, Stalker.new 5 6]).updateMonsters
        ⟨6, 5, 100, 0⟩ (fun i => if i = 0 then 1 else 2)).2.1.monsters
        = [Stalker.new 5 5, Stalker.new 4 5, Stalker.new 5 6]) := by
  decide

/-- C17, amended: `Map::updateMonsters` advances the pursuers one after another in
list order, each exactly once: the state after the first `k + 1` pursuers is
`Stalker::update` of pursuer `k` on the player, map and random stream left by
the first `k`, and the result of `updateMonsters` is the state after all of
them.  When the pursuers are separated (as in every reachable state), two
chasing pursuers have the same chase target, that cell is not the player's cell
and it holds Floor when the earlier one's turn comes, then after
`updateMonsters` the earlier one is on that cell and the later one is where it
was. -/
theorem C17_sequential_amended (map : Map) (player : Player) (rng : Rand) :
    afterFirst 0 map player rng = ⟨[], player, map, rng⟩ ∧
    (∀ (k : Nat) (hk : k < map.monsters.length),
      afterFirst (k + 1) map player rng =
        ⟨(afterFirst k map player rng).monsters ++
            [(Stalker.update map.monsters[k] (afterFirst k map player rng).player
              (afterFirst k map player rng).map (afterFirst k map player rng).rng).self],
          (Stalker.update map.monsters[k] (afterFirst k map player rng).player
            (afterFirst k map player rng).map (afterFirst k map player rng).rng).player,
          (Stalker.update map.monsters[k] (afterFirst k map player rng).player
            (afterFirst k map player rng).map (afterFirst k map player rng).rng).map,
          (Stalker.update map.monsters[k] (afterFirst k map player rng).player
            (afterFirst k map player rng).map (afterFirst k map player rng).rng).rng⟩) ∧
    map.updateMonsters player rng =
      ((afterFirst map.monsters.length map player rng).player,
        { (afterFirst map.monsters.length map player rng).map with
          monsters := (afterFirst map.monsters.length map player rng).monsters },
        (afterFirst map.monsters.length map player rng).rng) ∧
    (map.updateMonsters player rng).2.1.monsters.length = map.monsters.length ∧
    (∀ (pre mid post : List Monster) (a b : Monster) (tx ty : Int),
      map.monsters = pre ++ a :: (mid ++ b :: post) →
      Separated map.monsters map →
      Chasing a player → Chasing b player →
      Stalker.chaseTarget a player = (tx, ty) → Stalker.chaseTarget b player = (tx, ty) →
      ¬ (tx = player.x ∧ ty = player.y) →
      (afterFirst pre.length map player rng).map.getChar tx ty = '.' →
      (map.updateMonsters player rng).2.1.monsters[pre.length]?
          = some { a with x := tx, y := ty } ∧
      (map.updateMonsters player rng).2.1.monsters[pre.length + 1 + mid.length]? = some b) := by
  refine ⟨rfl, fun k hk => afterFirst_succ map player rng k hk, ?_, ?_, ?_⟩
  · unfold afterFirst Map.updateMonsters
    rw [List.take_length]
  · exact updateEach_length _ _ _ _
  · intro pre mid post a b tx ty hms hsep ha hb hta htb hne hf
    have hpre : map.monsters.take pre.length = pre := by
      rw [hms, List.take_left']
      rfl
    unfold afterFirst at hf
    rw [hpre] at hf
    rw [hms] at hsep
    obtain ⟨pre', mid', post', h1, h2, _, hl⟩ :=
      updateEach_two_chasers pre mid post a b player map rng tx ty hsep ha hb hta htb hne hf
    have hm : (map.updateMonsters player rng).2.1.monsters =
        pre' ++ { a with x := tx, y := ty } :: (mid' ++ b :: post') := by
      unfold Map.updateMonsters
      simp only []
      rw [hms]
      exact hl
    rw [hm, ← h1, ← h2]
    constructor
    · rw [List.getElem?_append_right (le_refl _)]
      simp
    · rw [List.getElem?_append_right (by omega)]
      have e : pre'.length + 1 + mid'.length - pre'.length = mid'.length + 1 := by omega
      rw [e, List.getElem?_cons_succ, List.getElem?_append_right (le_refl _)]
      simp

/-- C17, amended, for pursuers `[(4,5), (5,6)]` and a player at `(6,4)`: both chase
toward `(5,5)`; the first ends on `(5,5)`, the second is still at `(5,6)`. -/
theorem C17_sequential_amended_witness :
    ((floorOf [Stalker.new 4 5, Stalker.new 5 6]).updateMonsters ⟨6, 4, 100, 0⟩
        (fun _ => 0)).2.1.monsters[0]? = some ⟨5, 5, 'M'⟩ ∧
    ((floorOf [Stalker.new 4 5, Stalker.new 5 6]).updateMonsters ⟨6, 4, 100, 0⟩
        (fun _ => 0)).2.1.monsters[1]? = some ⟨5, 6, 'M'⟩ :=
  (C17_sequential_amended (floorOf [Stalker.new 4 5, Stalker.new 5 6]) ⟨6, 4, 100, 0⟩
    (fun _ => 0)).2.2.2.2 [] [] [] (Stalker.new 4 5) (Stalker.new 5 6) 5 5
    rfl (by decide) (by decide) (by decide) (by decide) (by decide) (by decide) (by decide)

end Rissul
